import Mathlib

/-!
# Verification of the teracontrol measurement core

A shallow embedding, in Lean 4, of the parts of the `teracontrol`
instrument-control code base that its specification makes claims about:

* `SweepConfig` (`core/experiment/sweep_config.py`): validation and point
  generation for 1D sweeps.  Python floats are modelled as exact rationals.
* `TeraflashTHzSystem` status snapshot and trace acquisition
  (`hal/teraflash.py`).
* `CaptureEngine.estimate_timeout_s` (`engines/capture_engine.py`).
* `GenericMercuryController` typed device accessors
  (`hal/generic_mercury.py`).
* `InstrumentRegistry.disconnect_all` (`core/instruments/registry.py`).
* `ExperimentWorker.run` (`core/experiment/qt_experiment.py`): the sweep
  execution state machine, modelled as a deterministic interpreter over an
  environment that scripts the external world (flag reads, engine call
  outcomes, axis behaviour), producing a trace of emitted signals and
  outgoing calls.

Fallible Python calls are modelled with `Except`; `while` loops are given
explicit fuel, with exhaustion surfacing as a (model-level) error so that
`finally`-style cleanup still runs, as it would for any exception.
-/

namespace Teracontrol

/-! ## SweepConfig (`core/experiment/sweep_config.py`) -/

/-- Errors raised by `SweepConfig.__post_init__`. -/
inductive SweepErr where
  | zeroStep
  | signMismatch
deriving Repr, DecidableEq

/-- `SweepConfig`: axis omitted (not needed for the numeric claims);
floats modelled as rationals. -/
structure SweepConfig where
  start : ℚ
  stop : ℚ
  step : ℚ
  dwell_s : ℚ := 0
deriving Repr, DecidableEq

/-- `SweepConfig.__post_init__`: raises on `step == 0`, and on
`(stop - start) * step < 0` (step sign does not move start toward stop). -/
def SweepConfig.postInit (c : SweepConfig) : Except SweepErr Unit :=
  if c.step = 0 then .error .zeroStep
  else if (c.stop - c.start) * c.step < 0 then .error .signMismatch
  else .ok ()

/-- `eps = abs(self.step) * 1e-12` in `points()`. -/
def sweepEps (step : ℚ) : ℚ := |step| * (1 / 10 ^ 12)

/-- The `step > 0` branch of `points()`: `while x <= self.stop + eps:
yield x; x += self.step`, with explicit fuel. -/
def pointsUpAux (stop step eps : ℚ) : Nat → ℚ → List ℚ
  | 0, _ => []
  | fuel + 1, x =>
    if x ≤ stop + eps then x :: pointsUpAux stop step eps fuel (x + step) else []

/-- The `step < 0` branch of `points()`: `while x >= self.stop - eps:
yield x; x += self.step`, with explicit fuel. -/
def pointsDownAux (stop step eps : ℚ) : Nat → ℚ → List ℚ
  | 0, _ => []
  | fuel + 1, x =>
    if stop - eps ≤ x then x :: pointsDownAux stop step eps fuel (x + step) else []

/-- Fuel bound for the `points()` loop: the loop runs about
`(stop - start) / step` iterations (a nonnegative quantity for validated
configs), plus the initial point and the final failing test. -/
def SweepConfig.pointsFuel (c : SweepConfig) : Nat :=
  (⌊(c.stop - c.start) / c.step⌋).toNat + 2

/-- `SweepConfig.points()`: generate sweep points including start and stop. -/
def SweepConfig.points (c : SweepConfig) : List ℚ :=
  let eps := sweepEps c.step
  if 0 < c.step then pointsUpAux c.stop c.step eps c.pointsFuel c.start
  else pointsDownAux c.stop c.step eps c.pointsFuel c.start

/-- `SweepConfig.npoints()`: total number of points in the sweep. -/
def SweepConfig.npoints (c : SweepConfig) : Nat := c.points.length

end Teracontrol

namespace Teracontrol

/-! ## Theorems: C2 and C10 (SweepConfig validation and zero-distance sweeps) -/

theorem sweepEps_pos {step : ℚ} (h : step ≠ 0) : 0 < sweepEps step := by
  have : 0 < |step| := abs_pos.mpr h
  unfold sweepEps
  positivity

theorem sweepEps_lt_self {step : ℚ} (h : 0 < step) : sweepEps step < step := by
  unfold sweepEps
  rw [abs_of_pos h]
  nlinarith

theorem neg_lt_neg_sweepEps {step : ℚ} (h : step < 0) : step < -sweepEps step := by
  unfold sweepEps
  rw [abs_of_neg h]
  nlinarith

/-- C2 (counterexample): constructing `SweepConfig(start=1, stop=1,
step=-0.5)` does **not** raise: the sign check `(stop - start) * step < 0`
is strict and `(1 - 1) * (-1/2) = 0`, so `__post_init__` succeeds, contrary
to the claim that it raises a sign-mismatch error. -/
theorem sweep_zero_distance_neg_step_accepted :
    SweepConfig.postInit ⟨1, 1, -(1/2 : ℚ), 0⟩ = .ok () := by
  unfold SweepConfig.postInit
  norm_num

/-- C2 (amended): construction fails on `step = 0`; when `start ≠ stop`,
construction succeeds exactly when the step's sign points from start toward
stop; but when `start = stop`, construction succeeds for every non-zero
step (in particular for `start=1, stop=1, step=-0.5`). -/
theorem sweep_postInit_sign_characterization (c : SweepConfig) :
    (c.step = 0 → c.postInit = .error .zeroStep) ∧
    (c.start = c.stop → c.step ≠ 0 → c.postInit = .ok ()) ∧
    (c.start < c.stop → (c.postInit = .ok () ↔ 0 < c.step)) ∧
    (c.stop < c.start → (c.postInit = .ok () ↔ c.step < 0)) := by
  unfold SweepConfig.postInit
  refine ⟨fun h => by simp [h], fun h hne => ?_, fun h => ?_, fun h => ?_⟩
  · have : (c.stop - c.start) * c.step = 0 := by rw [h]; ring
    simp [hne, this]
  · constructor
    · intro hok
      by_contra hle
      push_neg at hle
      rcases lt_or_eq_of_le hle with hlt | heq
      · have hneg : (c.stop - c.start) * c.step < 0 :=
          mul_neg_of_pos_of_neg (by linarith) hlt
        have hne : c.step ≠ 0 := ne_of_lt hlt
        simp [hne, hneg] at hok
      · simp [← heq] at hok
    · intro hpos
      have hne : c.step ≠ 0 := ne_of_gt hpos
      have hnn : ¬ (c.stop - c.start) * c.step < 0 := by
        push_neg
        exact mul_nonneg (by linarith) hpos.le
      simp [hne, hnn]
  · constructor
    · intro hok
      by_contra hge
      push_neg at hge
      rcases lt_or_eq_of_le hge with hlt | heq
      · have hneg : (c.stop - c.start) * c.step < 0 :=
          mul_neg_of_neg_of_pos (by linarith) hlt
        have hne : c.step ≠ 0 := ne_of_gt hlt
        simp [hne, hneg] at hok
      · simp [heq] at hok
    · intro hneg
      have hne : c.step ≠ 0 := ne_of_lt hneg
      have hnn : ¬ (c.stop - c.start) * c.step < 0 := by
        push_neg
        have : 0 ≤ -(c.stop - c.start) * -c.step :=
          mul_nonneg (by linarith) (by linarith)
        nlinarith
      simp [hne, hnn]

/-- C2 (amended, witness): `start=2, stop=5, step=1` constructs
successfully, via the start-toward-stop characterization. -/
theorem sweep_postInit_sign_characterization_witness :
    SweepConfig.postInit ⟨2, 5, 1, 0⟩ = .ok () :=
  ((sweep_postInit_sign_characterization ⟨2, 5, 1, 0⟩).2.2.1 (by norm_num)).mpr
    (by norm_num)

/-- C10: with `stop = start` and any non-zero step of either sign,
construction succeeds (the sign check is strict) and `points()` yields
exactly the single point `start`, so `npoints() = 1`. -/
theorem sweep_zero_distance_single_point (start step dwell : ℚ)
    (h : step ≠ 0) :
    SweepConfig.postInit ⟨start, start, step, dwell⟩ = .ok () ∧
    SweepConfig.points ⟨start, start, step, dwell⟩ = [start] ∧
    SweepConfig.npoints ⟨start, start, step, dwell⟩ = 1 := by
  have heps := sweepEps_pos h
  have hfuel : SweepConfig.pointsFuel ⟨start, start, step, dwell⟩ = 2 := by
    unfold SweepConfig.pointsFuel
    simp [sub_self, zero_div, Int.floor_zero]
  have hpts : SweepConfig.points ⟨start, start, step, dwell⟩ = [start] := by
    unfold SweepConfig.points
    rw [hfuel]
    rcases lt_or_gt_of_ne h with hneg | hpos
    · have h1 : ¬ 0 < step := by linarith
      have hcond : start - sweepEps step ≤ start := by linarith
      have hcond2 : ¬ start - sweepEps step ≤ start + step := by
        have := neg_lt_neg_sweepEps hneg
        push_neg
        linarith
      simp only [h1, if_false, pointsDownAux, hcond, if_pos, hcond2, if_neg]
    · have hcond : start ≤ start + sweepEps step := by linarith
      have hcond2 : ¬ start + step ≤ start + sweepEps step := by
        have := sweepEps_lt_self hpos
        push_neg
        linarith
      simp only [hpos, if_true, pointsUpAux, hcond, if_pos]
      simp [hcond2]
  refine ⟨?_, hpts, ?_⟩
  · exact (sweep_postInit_sign_characterization _).2.1 rfl h
  · unfold SweepConfig.npoints
    rw [hpts]
    rfl

/-- C10 (witness): `start=7, stop=7, step=-2` constructs successfully and
sweeps the single point `7`. -/
theorem sweep_zero_distance_single_point_witness :
    SweepConfig.postInit ⟨7, 7, -2, 0⟩ = .ok () ∧
    SweepConfig.points ⟨7, 7, -2, 0⟩ = [(7 : ℚ)] ∧
    SweepConfig.npoints ⟨7, 7, -2, 0⟩ = 1 :=
  sweep_zero_distance_single_point 7 (-2) 0 (by norm_num)

end Teracontrol

namespace Teracontrol

/-! ## TeraflashTHzSystem status snapshot (`hal/teraflash.py`)

Each UDP read command (`_read` → `_send_command`) either returns a value
or raises a transport error (`_send_command` raises when not connected or
when the socket call fails; `_read`'s parse fallback returns the raw
string instead of raising, so parse failures are *not* errors here).
A read outcome is scripted by the environment as an `Except`. -/

/-- Outcome of one read command: value, or a raised transport error. -/
abbrev ReadRes (α : Type) := Except Unit α

/-- The reads `TeraflashTHzSystem.status` / `is_running` may perform,
scripted.  `connected` is `is_connected()` (pure: both sockets present);
`channel` is the `channel` property (pure attribute). -/
structure TeraflashReads where
  connected : Bool
  channel : Nat
  laserState : ReadRes String
  emitterState : ReadRes String
  runState : ReadRes String
  averagePoints : ReadRes Int
  tactimeS : ReadRes ℚ
  amplitudeNA : ReadRes ℚ

/-- `TeraflashTHzSystem.is_running`: `False` when not connected, else
`read_laser_state() == "ON" and read_emitter_state() == "ON" and
read_run_state() == "ON"`, with Python's short-circuit evaluation; any
read may raise, and the exception propagates. -/
def tfIsRunning (r : TeraflashReads) : Except Unit Bool :=
  if ¬ r.connected then .ok false
  else do
    let laser ← r.laserState
    if laser = "ON" then do
      let emitter ← r.emitterState
      if emitter = "ON" then do
        let run ← r.runState
        pure (run = "ON")
      else pure false
    else pure false

/-- `TeraflashTHzSystem._safe`: call `fn`, returning `None` on any
exception. -/
def tfSafe {α : Type} (x : ReadRes α) : Option α :=
  match x with
  | .ok v => some v
  | .error _ => none

/-- The status snapshot dictionary built by `TeraflashTHzSystem.status`. -/
structure TeraflashStatus where
  connected : Bool
  running : Bool
  channel : Nat
  average_points : Option Int
  tac_time_s : Option ℚ
  amplitude_nA : Option ℚ
deriving Repr, DecidableEq

/-- `TeraflashTHzSystem.status`: builds the snapshot dict.  The
`average_points`, `tac_time_s` and `amplitude_nA` entries are wrapped in
`_safe`; the `running` entry calls `is_running()` unwrapped, so an
exception there propagates out of `status()`. -/
def tfStatus (r : TeraflashReads) : Except Unit TeraflashStatus := do
  let running ← tfIsRunning r
  pure { connected := r.connected
         running := running
         channel := r.channel
         average_points := tfSafe r.averagePoints
         tac_time_s := tfSafe r.tactimeS
         amplitude_nA := tfSafe r.amplitudeNA }

/-! ## CaptureEngine.estimate_timeout_s (`engines/capture_engine.py`) -/

/-- `_read(cmd, astype=float)`: a transport failure raises; a reply that
does not parse as a float is returned as the raw string (`inr`). -/
def tfReadFloat (resp : Except Unit String) (parse : String → Option ℚ) :
    Except Unit (ℚ ⊕ String) :=
  match resp with
  | .error e => .error e
  | .ok s =>
    match parse s with
    | some v => .ok (.inl v)
    | none => .ok (.inr s)

/-- The `try` body of `CaptureEngine.estimate_timeout_s`: on a parsed TAC
time, `max(thz.timeout, 2.0 * tac + 3.0)`; if the read raised, or returned
a raw string (so that `2.0 * tac` raises `TypeError`), the `except` branch
returns `thz.timeout`. -/
def estimateTimeoutS (timeout : ℚ) (tacRead : Except Unit (ℚ ⊕ String)) : ℚ :=
  match tacRead with
  | .ok (.inl tac) => max timeout (2 * tac + 3)
  | .ok (.inr _) => timeout
  | .error _ => timeout

/-- `CaptureEngine.estimate_timeout_s` including the `_get_thz()` registry
lookup, which is *outside* the `try` block and raises `KeyError` when no
THz instrument is registered.  `getThz` yields the instrument's configured
`timeout` attribute. -/
def captureEstimateTimeoutS (getThz : Except Unit ℚ)
    (resp : Except Unit String) (parse : String → Option ℚ) :
    Except Unit ℚ := do
  let timeout ← getThz
  pure (estimateTimeoutS timeout (tfReadFloat resp parse))

/-! ## Theorems: C5 and C6 -/

/-- C5 (counterexample): with the instrument connected, a transport
failure in the laser-state read — one individual read command failing —
propagates out of `status()` via the unguarded `is_running()` call: the
whole snapshot raises instead of degrading that field, contrary to the
claim that `status()` never raises and each field degrades
independently. -/
theorem tf_status_raises_on_run_state_read_failure :
    tfStatus { connected := true, channel := 1, laserState := .error (),
               emitterState := .ok "ON", runState := .ok "ON",
               averagePoints := .ok 1000, tactimeS := .ok 1,
               amplitudeNA := .ok 50 } = .error () := rfl

/-- C5 (amended): the `average_points`, `tac_time_s` and `amplitude_nA`
fields each independently degrade to an unavailable value (`None`) on
read failure, and a failure in one of them leaves every other field
present; but the run-state field does **not** degrade: whenever the
laser/emitter/run-state reads inside `is_running()` raise, `status()`
raises with them, and otherwise the snapshot is returned whole. -/
theorem tf_status_field_isolation (r : TeraflashReads) :
    (∀ b, tfIsRunning r = .ok b →
      tfStatus r = .ok { connected := r.connected, running := b,
                         channel := r.channel,
                         average_points := tfSafe r.averagePoints,
                         tac_time_s := tfSafe r.tactimeS,
                         amplitude_nA := tfSafe r.amplitudeNA }) ∧
    (∀ e, tfIsRunning r = .error e → tfStatus r = .error e) := by
  constructor
  · intro b h
    unfold tfStatus
    rw [h]
    rfl
  · intro e h
    unfold tfStatus
    rw [h]
    rfl

/-- C5 (amended, witness): disconnected instrument with failing
average-point and amplitude reads but a good TAC-time read: the snapshot
is returned with exactly those two fields missing. -/
theorem tf_status_field_isolation_witness :
    tfStatus { connected := false, channel := 2, laserState := .ok "ON",
               emitterState := .ok "ON", runState := .ok "ON",
               averagePoints := .error (), tactimeS := .ok 7,
               amplitudeNA := .error () } =
      .ok { connected := false, running := false, channel := 2,
            average_points := none, tac_time_s := some 7,
            amplitude_nA := none } :=
  (tf_status_field_isolation _).1 false rfl

/-- C6: `CaptureEngine.estimate_timeout_s` returns
`max(configured timeout, 2×TACtime + 3s)` when the TAC-time read succeeds
and parses, and returns exactly the configured timeout, without raising,
when the read fails — whether the transport raised or the reply did not
parse as a float (in which case `2.0 * tac` raises `TypeError`, caught by
the same `except` branch). -/
theorem capture_estimate_timeout_fallback (timeout : ℚ)
    (resp : Except Unit String) (parse : String → Option ℚ) :
    (∀ s tac, resp = .ok s → parse s = some tac →
      captureEstimateTimeoutS (.ok timeout) resp parse =
        .ok (max timeout (2 * tac + 3))) ∧
    (∀ e, resp = .error e →
      captureEstimateTimeoutS (.ok timeout) resp parse = .ok timeout) ∧
    (∀ s, resp = .ok s → parse s = none →
      captureEstimateTimeoutS (.ok timeout) resp parse = .ok timeout) := by
  refine ⟨fun s tac h1 h2 => ?_, fun e h1 => ?_, fun s h1 h2 => ?_⟩
  · subst h1
    simp [captureEstimateTimeoutS, tfReadFloat, estimateTimeoutS, h2]
  · subst h1
    simp [captureEstimateTimeoutS, tfReadFloat, estimateTimeoutS]
  · subst h1
    simp [captureEstimateTimeoutS, tfReadFloat, estimateTimeoutS, h2]

/-- C6 (witness): configured timeout 15 s; a TAC-time transport failure
falls back to exactly 15 s; a parsed TAC time of 20 s yields
`max(15, 2*20+3) = 43`. -/
theorem capture_estimate_timeout_fallback_witness :
    captureEstimateTimeoutS (.ok 15) (.error ()) (fun _ => none) = .ok 15 ∧
    captureEstimateTimeoutS (.ok 15) (.ok "20") (fun _ => some 20) =
      .ok 43 := by
  constructor
  · exact (capture_estimate_timeout_fallback 15 (.error ()) _).2.1 () rfl
  · have h := (capture_estimate_timeout_fallback 15 (.ok "20")
      (fun _ => some 20)).1 "20" 20 rfl rfl
    rw [h]
    norm_num

end Teracontrol

namespace Teracontrol

/-! ## TeraflashTHzSystem.acquire_trace (`hal/teraflash.py`)

The per-acquisition TCP connection is modelled by the peer's entire byte
sequence (`stream : List Char`, one `Char` per byte): `recv` hands out
successive bytes and returns an empty chunk once the stream is exhausted
(connection closed). -/

/-- `_recv_exact(sock, n)`: loop `recv`ing chunks until `n` bytes are
accumulated; an empty chunk (peer closed early) raises.  Against a peer
that sends `stream` and then closes, this succeeds with the first `n`
bytes iff the stream holds at least `n` bytes. -/
def recvExact (stream : List Char) (n : Nat) :
    Except Unit (List Char × List Char) :=
  if n ≤ stream.length then .ok (stream.take n, stream.drop n) else .error ()

/-- `_normalize_header`: lower-case and `/` → `_`. -/
def normalizeHeader (h : String) : String := (h.toLower).replace "/" "_"

/-- The parsed trace: raw headers plus a normalized-name → column map. -/
structure TraceData where
  headers : List String
  columns : List (String × List ℚ)
deriving Repr

/-- `_parse_trace`: strip the payload, split lines (CRLF per protocol
docs), take the first line as comma-separated headers (trimmed), parse
the remaining lines as a float matrix — `np.array(data, dtype=float)`
raises on an unparseable cell or on ragged rows, and `arr.shape[1]`
raises when there are no data rows — then require the column count to
equal the header count.  `pf` models Python `float()`. -/
def parseTrace (pf : String → Option ℚ) (payload : String) :
    Except Unit TraceData :=
  match ((payload.trim.replace "\r\n" "\n").splitOn "\n") with
  | [] => .error ()
  | header :: rows =>
    let headers := (header.splitOn ",").map String.trim
    match rows.mapM (fun l => (l.splitOn ",").mapM pf) with
    | none => .error ()
    | some data =>
      match data with
      | [] => .error ()
      | r0 :: rest =>
        if rest.all (fun r => r.length = r0.length) then
          if r0.length = headers.length then
            .ok ⟨headers,
                 headers.mapIdx fun i name =>
                   (normalizeHeader name, data.map fun r => r.getD i 0)⟩
          else .error ()
        else .error ()

/-- `acquire_trace`: raises when not connected; calls `is_running()`
(whose UDP reads may themselves raise; its boolean only gates a warning);
then reads exactly 6 bytes as a decimal length (`pi` models Python
`int()`, whose `ValueError` on non-numeric bytes raises), validates
`0 < length ≤ 10_000_000` *before* any payload read, reads exactly
`length` payload bytes, and parses the CSV.  Exception propagation is
rendered by the error cases of each match. -/
def acquireTrace (pi : String → Option Int) (pf : String → Option ℚ)
    (connected : Bool) (isRunningRes : Except Unit Bool)
    (stream : List Char) : Except Unit TraceData :=
  if ¬ connected then .error () else
  match isRunningRes with
  | .error e => .error e
  | .ok _ =>
    match recvExact stream 6 with
    | .error e => .error e
    | .ok (lenBytes, rest) =>
      match pi (String.mk lenBytes) with
      | none => .error ()
      | some length =>
        if length ≤ 0 ∨ 10000000 < length then .error () else
        match recvExact rest length.toNat with
        | .error e => .error e
        | .ok (payload, _) => parseTrace pf (String.mk payload)

/-! ## Theorems: C7 -/

/-- C7: `acquire_trace` fails, returning no (partial) trace, whenever the
declared 6-digit length `L` is `≤ 0` or `> 10_000_000` — and it does so
before reading any payload bytes: the rejection holds for *every*
continuation `rest` of the stream and every cell parser — and it likewise
fails whenever the connection closes before `L` payload bytes arrived
(`rest` shorter than `L`). -/
theorem acquire_trace_rejects_invalid_and_short
    (pi : String → Option Int) (pf : String → Option ℚ) (b : Bool)
    (six rest : List Char) (L : Int)
    (h6 : six.length = 6) (hL : pi (String.mk six) = some L) :
    ((L ≤ 0 ∨ 10000000 < L) →
      acquireTrace pi pf true (.ok b) (six ++ rest) = .error ()) ∧
    (0 < L → L ≤ 10000000 → rest.length < L.toNat →
      acquireTrace pi pf true (.ok b) (six ++ rest) = .error ()) := by
  have hlen : 6 ≤ (six ++ rest).length := by
    rw [List.length_append, h6]
    omega
  have htake : (six ++ rest).take 6 = six := List.take_left' h6
  have hdrop : (six ++ rest).drop 6 = rest := List.drop_left' h6
  have hrecv : recvExact (six ++ rest) 6 = .ok (six, rest) := by
    unfold recvExact
    rw [if_pos hlen, htake, hdrop]
  constructor
  · intro hbad
    simp [acquireTrace, hrecv, hL, hbad]
  · intro hpos hle hshort
    have hbadn : ¬ (L ≤ 0 ∨ 10000000 < L) := by
      push_neg
      exact ⟨hpos, hle⟩
    have hrecv2 : recvExact rest L.toNat = .error () := by
      unfold recvExact
      rw [if_neg (by omega)]
    simp [acquireTrace, hrecv, hL, hbadn, hrecv2]

/-- C7 (witness): a declared length of `000000` is rejected even though
ample payload follows, and a declared length of `000005` fails when only
2 payload bytes arrive before the connection closes. -/
theorem acquire_trace_rejects_invalid_and_short_witness :
    acquireTrace (fun s => if s = "000005" then some 5 else some 0)
      (fun _ => none) true (.ok true)
      (['0','0','0','0','0','0'] ++ ['a','b','c']) = .error () ∧
    acquireTrace (fun s => if s = "000005" then some 5 else some 0)
      (fun _ => none) true (.ok true)
      (['0','0','0','0','0','5'] ++ ['a','b']) = .error () := by
  constructor
  · exact (acquire_trace_rejects_invalid_and_short _ (fun _ => none) true
      ['0','0','0','0','0','0'] ['a','b','c'] 0 (by decide) (by decide)).1
      (Or.inl (by decide))
  · exact (acquire_trace_rejects_invalid_and_short _ (fun _ => none) true
      ['0','0','0','0','0','5'] ['a','b'] 5 (by decide) (by decide)).2
      (by decide) (by decide) (by decide)

end Teracontrol

namespace Teracontrol

/-! ## GenericMercuryController typed accessors (`hal/generic_mercury.py`)

The single TCP socket is modelled by a reply schedule (`responses k` is
the instrument's reply — or a raised transport error — to the `k`-th
command sent) plus a log of the commands actually sent; "nothing was sent
on the socket" is the empty log. -/

/-- Errors a Mercury accessor can raise. -/
inductive MercuryErr where
  | keyError      -- `self.devices[name]` lookup failure
  | indexError    -- `device_id.split(":")[1]` on an id without a kind
  | kindMismatch  -- `_check_device_kind` RuntimeError
  | protocol      -- transport failure / bad SET reply
deriving Repr, DecidableEq

/-- The controller's view: the name → device-id map built at connect time,
and the reply schedule of the instrument. -/
structure MercurySession where
  devices : List (String × String)
  responses : Nat → Except MercuryErr String

/-- `_send_command`: append the command to the sent log and take the
instrument's scheduled reply. -/
def mercurySend (s : MercurySession) (sent : List String) (cmd : String) :
    Except MercuryErr String × List String :=
  (s.responses sent.length, sent ++ [cmd])

/-- Python `str.split(sep)` for a single-character separator: split on
every occurrence, keeping empty segments. -/
def splitCharAux (sep : Char) : List Char → List Char → List (List Char)
  | [], acc => [acc.reverse]
  | c :: cs, acc =>
    if c = sep then acc.reverse :: splitCharAux sep cs []
    else splitCharAux sep cs (c :: acc)

/-- Python `s.split(sep)` for a one-character `sep`. -/
def pySplitChar (sep : Char) (s : String) : List String :=
  (splitCharAux sep s.data []).map String.mk

/-- `_check_device_kind`: compare `device_id.split(":")[1]` with the
expected kind; mismatch raises `RuntimeError` (and a one-segment id
raises `IndexError`). -/
def checkDeviceKind (deviceId expected : String) : Except MercuryErr Unit :=
  match (pySplitChar ':' deviceId).get? 1 with
  | none => .error .indexError
  | some actual =>
    if actual ≠ expected then .error .kindMismatch else .ok ()

/-- `value.split(unit)[0]` guarded by `if unit:`. -/
def stripUnit (value unitSuffix : String) : String :=
  if unitSuffix = "" then value
  else ((value.splitOn unitSuffix).headD value)

/-- `_read_device`: resolve the device id (`KeyError` if absent), check
the device kind *before* sending anything, then send
`READ:DEV:<id>:<cmd>`, take the reply's last `:`-segment, strip the unit
suffix, and parse (an unparseable value is returned raw, `inr`).  The
second component is the list of commands sent on the socket. -/
def readDevice (s : MercurySession) (deviceName cmd : String)
    (parse : String → Option ℚ) (unitSuffix : String)
    (expectedKind : Option String) :
    Except MercuryErr (ℚ ⊕ String) × List String :=
  match (s.devices.lookup deviceName) with
  | none => (.error .keyError, [])
  | some deviceId =>
    let kindCheck : Except MercuryErr Unit :=
      match expectedKind with
      | some k => checkDeviceKind deviceId k
      | none => .ok ()
    match kindCheck with
    | .error e => (.error e, [])
    | .ok _ =>
      let (resp, sent) :=
        mercurySend s [] ("READ:DEV:" ++ deviceId ++ ":" ++ cmd)
      match resp with
      | .error e => (.error e, sent)
      | .ok line =>
        let value := ((pySplitChar ':' line).getLastD "")
        let value := stripUnit value unitSuffix
        match parse value with
        | some v => (.ok (.inl v), sent)
        | none => (.ok (.inr value), sent)

/-- `_set_device`: resolve the device id, check the device kind *before*
sending anything, then send `SET:DEV:<id>:<cmd>:<value>` and require the
reply to end with `"VALID"` (`_expect_valid`; any failure is re-raised as
`RuntimeError`). -/
def setDevice (s : MercurySession) (deviceName cmd value : String)
    (expectedKind : Option String) :
    Except MercuryErr Unit × List String :=
  match (s.devices.lookup deviceName) with
  | none => (.error .keyError, [])
  | some deviceId =>
    let kindCheck : Except MercuryErr Unit :=
      match expectedKind with
      | some k => checkDeviceKind deviceId k
      | none => .ok ()
    match kindCheck with
    | .error e => (.error e, [])
    | .ok _ =>
      let (resp, sent) :=
        mercurySend s []
          ("SET:DEV:" ++ deviceId ++ ":" ++ cmd ++ ":" ++ value)
      match resp with
      | .error _ => (.error .protocol, sent)
      | .ok line =>
        if line.endsWith "VALID" then (.ok (), sent)
        else (.error .protocol, sent)

/-- `read_temperature`: `_read_device(name, "SIG:TEMP", float, "K",
expected_kind="TEMP")` — one representative typed accessor. -/
def read_temperature (s : MercurySession) (deviceName : String)
    (parse : String → Option ℚ) :
    Except MercuryErr (ℚ ⊕ String) × List String :=
  readDevice s deviceName "SIG:TEMP" parse "K" (some "TEMP")

/-- `set_temperature_setpoint` body after the range check:
`_set_device(name, "LOOP:TSET", value, expected_kind="TEMP")`. -/
def set_temperature_setpoint (s : MercurySession) (deviceName value : String) :
    Except MercuryErr Unit × List String :=
  setDevice s deviceName "LOOP:TSET" value (some "TEMP")

/-! ## InstrumentRegistry.disconnect_all (`core/instruments/registry.py`) -/

/-- A registered instrument: its logical name and the outcome of calling
its `disconnect()`. -/
structure InstrumentM where
  name : String
  disconnectRes : Except Unit Unit

/-- `InstrumentRegistry.disconnect_all`: `for name in self.names():
self.get(name).disconnect()`.  The source has no exception handling here,
so the first raising `disconnect()` propagates and ends the loop.
Returns the overall outcome and the names whose `disconnect()` was
invoked. -/
def disconnectAll : List InstrumentM → Except Unit Unit × List String
  | [] => (.ok (), [])
  | inst :: rest =>
    match inst.disconnectRes with
    | .error e => (.error e, [inst.name])
    | .ok _ =>
      let (r, called) := disconnectAll rest
      (r, inst.name :: called)

/-! ## Theorems: C8 and C9 -/

/-- C8: whenever a typed accessor (`_read_device` / `_set_device` with an
`expected_kind`, which every per-kind accessor supplies) resolves a
device id whose encoded kind differs from the expected kind, the call
raises the kind-mismatch error immediately: no `READ:` or `SET:` command
is sent on the socket (empty sent log), and no value is returned or
coerced. -/
theorem mercury_kind_mismatch_raises_before_send
    (s : MercurySession) (deviceName deviceId actual expected : String)
    (cmd value unitSuffix : String) (parse : String → Option ℚ)
    (hlookup : s.devices.lookup deviceName = some deviceId)
    (hkind : (pySplitChar ':' deviceId).get? 1 = some actual)
    (hne : actual ≠ expected) :
    readDevice s deviceName cmd parse unitSuffix (some expected) =
      (.error .kindMismatch, []) ∧
    setDevice s deviceName cmd value (some expected) =
      (.error .kindMismatch, []) := by
  have hcheck : checkDeviceKind deviceId expected = .error .kindMismatch := by
    unfold checkDeviceKind
    rw [hkind]
    simp [hne]
  constructor
  · unfold readDevice
    rw [hlookup]
    simp [hcheck]
  · unfold setDevice
    rw [hlookup]
    simp [hcheck]

/-- C8 (witness): a registry mapping `"probe"` to a pressure device
(`DB8.P1:PRES`): `read_temperature("probe")` and
`set_temperature_setpoint("probe", ...)` both raise the kind mismatch
with nothing sent on the socket. -/
theorem mercury_kind_mismatch_raises_before_send_witness :
    read_temperature
      ⟨[("probe", "DB8.P1:PRES")], fun _ => .ok "STAT:OK"⟩ "probe"
      (fun _ => none) = (.error .kindMismatch, []) ∧
    set_temperature_setpoint
      ⟨[("probe", "DB8.P1:PRES")], fun _ => .ok "STAT:OK"⟩ "probe" "10" =
      (.error .kindMismatch, []) := by
  have h1 := mercury_kind_mismatch_raises_before_send
    ⟨[("probe", "DB8.P1:PRES")], fun _ => .ok "STAT:OK"⟩
    "probe" "DB8.P1:PRES" "PRES" "TEMP" "SIG:TEMP" "10" "K"
    (fun _ => none) (by decide) (by decide) (by decide)
  have h2 := mercury_kind_mismatch_raises_before_send
    ⟨[("probe", "DB8.P1:PRES")], fun _ => .ok "STAT:OK"⟩
    "probe" "DB8.P1:PRES" "PRES" "TEMP" "LOOP:TSET" "10" "K"
    (fun _ => none) (by decide) (by decide) (by decide)
  exact ⟨h1.1, h2.2⟩

/-- C9 (counterexample): with two registered instruments whose first
`disconnect()` raises, `disconnect_all()` propagates the failure to the
caller and the second instrument is never disconnected — contradicting
the claim that failures are logged, not propagated, and that the
remaining instruments are still disconnected. -/
theorem registry_disconnect_all_propagates :
    disconnectAll [⟨"A", .error ()⟩, ⟨"B", .ok ()⟩] =
      (.error (), ["A"]) := rfl

/-- C9 (amended): `disconnect_all` disconnects every registered
instrument in order when every `disconnect()` succeeds; but the first
raising `disconnect()` propagates to the caller and the remaining
instruments are not disconnected. -/
theorem registry_disconnect_all_characterization :
    (∀ l : List InstrumentM, (∀ i ∈ l, i.disconnectRes = .ok ()) →
      disconnectAll l = (.ok (), l.map InstrumentM.name)) ∧
    (∀ (pre : List InstrumentM) (inst : InstrumentM)
        (post : List InstrumentM),
      (∀ i ∈ pre, i.disconnectRes = .ok ()) →
      inst.disconnectRes = .error () →
      disconnectAll (pre ++ inst :: post) =
        (.error (), pre.map InstrumentM.name ++ [inst.name])) := by
  have hok : ∀ l : List InstrumentM,
      (∀ i ∈ l, i.disconnectRes = .ok ()) →
      disconnectAll l = (.ok (), l.map InstrumentM.name) := by
    intro l
    induction l with
    | nil => intro _; rfl
    | cons inst rest ih =>
      intro h
      have h1 : inst.disconnectRes = .ok () := h inst (by simp)
      have h2 := ih (fun i hi => h i (by simp [hi]))
      simp [disconnectAll, h1, h2]
  refine ⟨hok, ?_⟩
  intro pre inst post
  induction pre with
  | nil =>
    intro _ hbad
    simp [disconnectAll, hbad]
  | cons p rest ih =>
    intro h hbad
    have h1 : p.disconnectRes = .ok () := h p (by simp)
    have h2 := ih (fun i hi => h i (by simp [hi])) hbad
    simp [disconnectAll, h1, h2]

/-- C9 (amended, witness): instruments A, B, C with B's `disconnect()`
raising: A and B are attempted, the failure propagates, C is skipped. -/
theorem registry_disconnect_all_characterization_witness :
    disconnectAll [⟨"A", .ok ()⟩, ⟨"B", .error ()⟩, ⟨"C", .ok ()⟩] =
      (.error (), ["A", "B"]) := by
  have h := registry_disconnect_all_characterization.2
    [⟨"A", .ok ()⟩] ⟨"B", .error ()⟩ [⟨"C", .ok ()⟩]
    (by intro i hi; simp at hi; rw [hi]) rfl
  simpa using h

end Teracontrol

namespace Teracontrol

/-! ## ExperimentWorker.run (`core/experiment/qt_experiment.py`)

The worker is modelled as a deterministic interpreter over an environment
that scripts the external world:

* the `_abort` / `_paused` flags are written asynchronously by the
  controlling thread, so the value observed by the worker's `k`-th read of
  each flag is scripted (`abortF k` / `pauseF k`);
* axis readiness and firmware-averaging completion are physical processes,
  scripted as functions of the monotonic clock (milliseconds, advanced
  only by `msleep`);
* every fallible engine/axis call outcome is scripted per call site
  (`Except`: `ok` result or raised exception).

The interpreter threads a state holding the ordered trace of emitted Qt
signals and outgoing engine/axis calls; exception propagation is rendered
by the error cases of each match, and `while` loops carry explicit fuel
whose exhaustion surfaces as a (model-only) error, which reaches the
`finally` block like any exception. -/

/-- A captured measurement as the worker sees it: `DataAtom` reduced to
the acquisition `index` the worker passes to `CaptureEngine.capture`
(and later reads back as `atom.index` in `_safe_dump`). -/
structure AtomM where
  index : Nat
deriving Repr, DecidableEq

/-- Emitted Qt signals (`sig*`) and outgoing calls (`call*`), in program
order. -/
inductive Ev where
  | sigStarted
  | sigRunProgress (cur total : Nat)
  | sigStepStarted (value : ℚ)
  | sigStepProgress (cur total : Nat) (msg : String)
  | sigDataReady (atom : AtomM)
  | sigStepFinished (i total : Nat)
  | sigAborted
  | sigFinished
  | callGoto (value : ℚ)
  | callShutdown
  | callBeginAveraging
  | callEndAveraging
  | callCapture (index : Nat)
  | callDumpSave (index : Nat)
  | callRunnerAbort
deriving Repr, DecidableEq

/-- Exceptions escaping worker steps: `TimeoutError`, any engine/axis
exception, or model-fuel exhaustion (standing for a `while` loop still
spinning). -/
inductive WErr where
  | timeout
  | engine
  | fuelExhausted
deriving Repr, DecidableEq

/-- Worker interpreter state: emitted trace, monotonic clock (ms), and
the per-flag read counters pairing each read with its scripted value. -/
structure WSt where
  trace : List Ev
  clock : Nat
  nA : Nat
  nP : Nat
deriving Repr, DecidableEq

/-- The scripted environment for one `run()` invocation. -/
structure WEnv where
  abortF : Nat → Bool             -- `_abort` at its k-th read
  pauseF : Nat → Bool             -- `_paused` at its k-th read
  blocking : Bool                 -- `axis.blocking`
  readyAt : Nat → Bool            -- `axis.is_ready()` at clock t
  settleMs : ℚ → Nat              -- `axis.estimate_settle_time_s(v)` (ms)
  gotoRes : ℚ → Except WErr Unit  -- `axis.goto(v)`
  beginAvgRes : Nat → Except WErr Unit   -- `begin_averaging()` at step i
  timeoutEstMs : Nat → Except WErr Nat   -- `estimate_timeout_s()` at step i (ms)
  avgDoneAt : Nat → Except WErr Bool     -- `is_averaging_done()` at clock t
  captureRes : ℚ → Nat → Except WErr AtomM  -- `capture(meta(v), index=i)`
  endAvgRes : Nat → Except WErr Unit     -- `end_averaging()` at step i
  dumpRes : Nat → Except WErr Unit       -- `dump_save` + metadata write at step i
  safeDumpDir : Bool              -- `runner.safe_dump_dir is not None`
  shutdownRes : Except WErr Unit  -- `axis.shutdown()` in the finally block
  fuel : Nat                      -- iteration budget for each while loop

/-- `_check_abort`: read `_abort`; when set, call `runner.abort()`, emit
`aborted` and report `True`. -/
def checkAbort (env : WEnv) (s : WSt) : Except WErr Bool × WSt :=
  let a := env.abortF s.nA
  let s1 : WSt := { s with nA := s.nA + 1 }
  if a then
    (.ok true, { s1 with trace := s1.trace ++ [.callRunnerAbort, .sigAborted] })
  else (.ok false, s1)

/-- `_wait_if_paused`: `while self._paused:` re-check `_abort` each
~50 ms quantum; abort inside the loop calls `runner.abort()`, emits
`aborted` and returns `False`. -/
def waitIfPaused (env : WEnv) : Nat → WSt → Except WErr Bool × WSt
  | fuel, s =>
    let p := env.pauseF s.nP
    let s1 : WSt := { s with nP := s.nP + 1 }
    if ¬ p then (.ok true, s1)
    else
      match fuel with
      | 0 => (.error .fuelExhausted, s1)
      | f + 1 =>
        let a := env.abortF s1.nA
        let s2 : WSt := { s1 with nA := s1.nA + 1 }
        if a then
          (.ok false,
           { s2 with trace := s2.trace ++ [.callRunnerAbort, .sigAborted] })
        else waitIfPaused env f { s2 with clock := s2.clock + 50 }

/-- `_controlled_sleep`: sleep in `min(50, remaining)` quanta, emitting
`step_progress(elapsed, total, "waiting...")` after each quantum, and
returning `False` as soon as `_abort` is observed. -/
def controlledSleepLoop (env : WEnv) (totalMs : Nat) :
    Nat → Nat → Nat → WSt → Except WErr Bool × WSt
  | fuel, remaining, elapsed, s =>
    if remaining = 0 then (.ok true, s)
    else
      match fuel with
      | 0 => (.error .fuelExhausted, s)
      | f + 1 =>
        let a := env.abortF s.nA
        let s1 : WSt := { s with nA := s.nA + 1 }
        if a then (.ok false, s1)
        else
          let stepMs := min 50 remaining
          let s2 : WSt := { s1 with clock := s1.clock + stepMs }
          let s3 : WSt :=
            { s2 with trace := s2.trace ++
                [.sigStepProgress (elapsed + stepMs) totalMs "waiting..."] }
          controlledSleepLoop env totalMs f (remaining - stepMs)
            (elapsed + stepMs) s3

/-- `_wait_for_averaging`: poll `is_averaging_done()`; inside the loop,
an observed abort returns `False`, `elapsed > timeout` raises
`TimeoutError`, otherwise emit `step_progress(elapsed, timeout,
"averaging...")` and sleep one quantum. -/
def waitForAveragingLoop (env : WEnv) (timeoutMs t0 : Nat) :
    Nat → WSt → Except WErr Bool × WSt
  | fuel, s =>
    match env.avgDoneAt s.clock with
    | .error e => (.error e, s)
    | .ok true => (.ok true, s)
    | .ok false =>
      match fuel with
      | 0 => (.error .fuelExhausted, s)
      | f + 1 =>
        let a := env.abortF s.nA
        let s1 : WSt := { s with nA := s.nA + 1 }
        if a then (.ok false, s1)
        else
          let elapsed := s1.clock - t0
          if timeoutMs < elapsed then (.error .timeout, s1)
          else
            let s2 : WSt :=
              { s1 with trace := s1.trace ++
                  [.sigStepProgress elapsed timeoutMs "averaging..."] }
            waitForAveragingLoop env timeoutMs t0 f
              { s2 with clock := s2.clock + 50 }

/-- The blocking-axis settle loop inside `_position_axis`: poll
`axis.is_ready()`; abort returns `False`; exceeding the estimated settle
time raises `TimeoutError`; otherwise emit stabilizing progress and sleep
one quantum. -/
def settleLoop (env : WEnv) (timeoutMs t0 : Nat) :
    Nat → WSt → Except WErr Bool × WSt
  | fuel, s =>
    if env.readyAt s.clock then (.ok true, s)
    else
      match fuel with
      | 0 => (.error .fuelExhausted, s)
      | f + 1 =>
        let a := env.abortF s.nA
        let s1 : WSt := { s with nA := s.nA + 1 }
        if a then (.ok false, s1)
        else
          let elapsed := s1.clock - t0
          if timeoutMs < elapsed then (.error .timeout, s1)
          else
            let s2 : WSt :=
              { s1 with trace := s1.trace ++
                  [.sigStepProgress elapsed timeoutMs "stabilizing..."] }
            settleLoop env timeoutMs t0 f { s2 with clock := s2.clock + 50 }

/-- The dwell tail of `_position_axis`: `if dwell_s > 0:` run the
controlled sleep (`int(dwell_s * 1000)` ms) and return `False` if it was
aborted; then emit `step_progress(1, 1, "")` and return `True`. -/
def positionDwell (env : WEnv) (dwellS : ℚ) (s : WSt) :
    Except WErr Bool × WSt :=
  let dwellMs := (⌊dwellS * 1000⌋).toNat
  match (if 0 < dwellS then
           controlledSleepLoop env dwellMs env.fuel dwellMs 0 s
         else (.ok true, s)) with
  | (.error e, s1) => (.error e, s1)
  | (.ok false, s1) => (.ok false, s1)
  | (.ok true, s1) =>
    (.ok true, { s1 with trace := s1.trace ++ [.sigStepProgress 1 1 ""] })

/-- `_position_axis`: `axis.goto(value)`; for a blocking axis poll
readiness against `estimate_settle_time_s(value)`; then dwell. -/
def positionAxis (env : WEnv) (v : ℚ) (dwellS : ℚ) (s : WSt) :
    Except WErr Bool × WSt :=
  let s0 : WSt := { s with trace := s.trace ++ [.callGoto v] }
  match env.gotoRes v with
  | .error e => (.error e, s0)
  | .ok _ =>
    match (if env.blocking then
             settleLoop env (env.settleMs v) s0.clock env.fuel s0
           else (.ok true, s0)) with
    | (.error e, s1) => (.error e, s1)
    | (.ok false, s1) => (.ok false, s1)
    | (.ok true, s1) => positionDwell env dwellS s1

/-- `_run_averaging`: `begin_averaging()`; `estimate_timeout_s()`;
wait for averaging — on an aborted wait call `end_averaging()` and return
`False`; on completion emit `step_progress(1, 1, "")` and return `True`.
A `TimeoutError` (or any engine exception) propagates *without* calling
`end_averaging()`. -/
def runAveraging (env : WEnv) (i : Nat) (s : WSt) : Except WErr Bool × WSt :=
  let s0 : WSt := { s with trace := s.trace ++ [.callBeginAveraging] }
  match env.beginAvgRes i with
  | .error e => (.error e, s0)
  | .ok _ =>
    match env.timeoutEstMs i with
    | .error e => (.error e, s0)
    | .ok timeoutMs =>
      match waitForAveragingLoop env timeoutMs s0.clock env.fuel s0 with
      | (.error e, s1) => (.error e, s1)
      | (.ok false, s1) =>
        let s2 : WSt := { s1 with trace := s1.trace ++ [.callEndAveraging] }
        match env.endAvgRes i with
        | .error e => (.error e, s2)
        | .ok _ => (.ok false, s2)
      | (.ok true, s1) =>
        (.ok true, { s1 with trace := s1.trace ++ [.sigStepProgress 1 1 ""] })

/-- `_capture_data`: `capture(meta, index=i)` then
`data_ready.emit(atom, meta)`. -/
def captureData (env : WEnv) (v : ℚ) (i : Nat) (s : WSt) :
    Except WErr AtomM × WSt :=
  let s0 : WSt := { s with trace := s.trace ++ [.callCapture i] }
  match env.captureRes v i with
  | .error e => (.error e, s0)
  | .ok atom =>
    (.ok atom, { s0 with trace := s0.trace ++ [.sigDataReady atom] })

/-- `_safe_dump`: early return when no dump directory is configured;
otherwise `capture.dump_save(path)` and the metadata write, either of
which may raise. -/
def safeDump (env : WEnv) (i : Nat) (s : WSt) : Except WErr Unit × WSt :=
  if env.safeDumpDir then
    let s0 : WSt := { s with trace := s.trace ++ [.callDumpSave i] }
    match env.dumpRes i with
    | .error e => (.error e, s0)
    | .ok _ => (.ok (), s0)
  else (.ok (), s)

/-- The `for i, value in enumerate(sweep.points(), start=1):` body of
`ExperimentWorker.run` (inside the `try`). -/
def runSteps (env : WEnv) (dwellS : ℚ) (npts : Nat) :
    List (Nat × ℚ) → WSt → Except WErr Unit × WSt
  | [], s => (.ok (), s)
  | (i, v) :: rest, s =>
    match checkAbort env s with
    | (.error e, s1) => (.error e, s1)
    | (.ok true, s1) => (.ok (), s1)
    | (.ok false, s1) =>
      match waitIfPaused env env.fuel s1 with
      | (.error e, s2) => (.error e, s2)
      | (.ok false, s2) => (.ok (), s2)
      | (.ok true, s2) =>
        match positionAxis env v dwellS s2 with
        | (.error e, s3) => (.error e, s3)
        | (.ok false, s3) =>
          (.ok (),
           { s3 with trace := s3.trace ++ [.callRunnerAbort, .sigAborted] })
        | (.ok true, s3) =>
          let s4 : WSt := { s3 with trace := s3.trace ++ [.sigStepStarted v] }
          match runAveraging env i s4 with
          | (.error e, s5) => (.error e, s5)
          | (.ok false, s5) =>
            (.ok (),
             { s5 with trace := s5.trace ++ [.callRunnerAbort, .sigAborted] })
          | (.ok true, s5) =>
            match captureData env v i s5 with
            | (.error e, s6) => (.error e, s6)
            | (.ok _, s6) =>
              match safeDump env i s6 with
              | (.error e, s7) => (.error e, s7)
              | (.ok _, s7) =>
                let s8 : WSt :=
                  { s7 with trace := s7.trace ++ [.callEndAveraging] }
                match env.endAvgRes i with
                | .error e => (.error e, s8)
                | .ok _ =>
                  runSteps env dwellS npts rest
                    { s8 with trace := s8.trace ++
                        [.sigRunProgress i npts, .sigStepFinished i npts] }

/-- Python `enumerate(xs, start=i)`. -/
def enumFrom (i : Nat) : List ℚ → List (Nat × ℚ)
  | [] => []
  | v :: rest => (i, v) :: enumFrom (i + 1) rest

/-- `ExperimentWorker.run`: emit `started` and `run_progress(0, npoints)`,
run the step loop, and in the `finally` block emit `finished`, emit the
`step_progress(0, 1, "")` reset, and call `axis.shutdown()` (whose own
exception would replace the in-flight one). -/
def workerRun (env : WEnv) (sweep : SweepConfig) : Except WErr Unit × WSt :=
  let npts := sweep.npoints
  let s0 : WSt := ⟨[.sigStarted, .sigRunProgress 0 npts], 0, 0, 0⟩
  let body := runSteps env sweep.dwell_s npts (enumFrom 1 sweep.points) s0
  let s2 : WSt :=
    { body.2 with trace := body.2.trace ++
        [.sigFinished, .sigStepProgress 0 1 "", .callShutdown] }
  (match env.shutdownRes with
   | .error e => .error e
   | .ok _ => body.1, s2)

/-! ### Trace-shape lemmas for the worker

The `try` body of `run` emits neither `finished` nor a `shutdown` call
(`GoodEv`); most helpers moreover touch neither `begin_averaging` nor
`end_averaging` (`PlainEv`). -/

/-- Events the `try` body may emit. -/
def GoodEv (e : Ev) : Prop := e ≠ Ev.sigFinished ∧ e ≠ Ev.callShutdown

/-- Good events that are not averaging-lifecycle calls either. -/
def PlainEv (e : Ev) : Prop :=
  GoodEv e ∧ e ≠ Ev.callBeginAveraging ∧ e ≠ Ev.callEndAveraging

theorem plain_count_zero {t : List Ev} (h : ∀ e ∈ t, PlainEv e) :
    t.count Ev.callBeginAveraging = 0 ∧ t.count Ev.callEndAveraging = 0 := by
  constructor <;> [skip; skip] <;>
    exact List.count_eq_zero.mpr (fun hm => by
      rcases h _ hm with ⟨_, hb, he⟩
      first
        | exact hb rfl
        | exact he rfl)

theorem plainEv_callRunnerAbort : PlainEv .callRunnerAbort := by
  simp [PlainEv, GoodEv]

theorem plainEv_sigAborted : PlainEv .sigAborted := by
  simp [PlainEv, GoodEv]

theorem plainEv_sigStepProgress (c t : Nat) (m : String) :
    PlainEv (.sigStepProgress c t m) := by
  simp [PlainEv, GoodEv]

theorem plainEv_callGoto (v : ℚ) : PlainEv (.callGoto v) := by
  simp [PlainEv, GoodEv]

theorem plainEv_sigStepStarted (v : ℚ) : PlainEv (.sigStepStarted v) := by
  simp [PlainEv, GoodEv]

theorem plainEv_callCapture (i : Nat) : PlainEv (.callCapture i) := by
  simp [PlainEv, GoodEv]

theorem plainEv_sigDataReady (a : AtomM) : PlainEv (.sigDataReady a) := by
  simp [PlainEv, GoodEv]

theorem plainEv_callDumpSave (i : Nat) : PlainEv (.callDumpSave i) := by
  simp [PlainEv, GoodEv]

theorem plainEv_sigRunProgress (c t : Nat) : PlainEv (.sigRunProgress c t) := by
  simp [PlainEv, GoodEv]

theorem plainEv_sigStepFinished (i t : Nat) :
    PlainEv (.sigStepFinished i t) := by
  simp [PlainEv, GoodEv]

theorem goodEv_callBeginAveraging : GoodEv .callBeginAveraging := by
  simp [GoodEv]

theorem goodEv_callEndAveraging : GoodEv .callEndAveraging := by
  simp [GoodEv]

theorem checkAbort_trace (env : WEnv) (s : WSt) :
    ∃ t, (checkAbort env s).2.trace = s.trace ++ t ∧ ∀ e ∈ t, PlainEv e := by
  unfold checkAbort
  by_cases h : env.abortF s.nA
  · exact ⟨[.callRunnerAbort, .sigAborted], by simp [h],
      by simp [List.forall_mem_cons, plainEv_callRunnerAbort,
               plainEv_sigAborted]⟩
  · exact ⟨[], by simp [h], by simp⟩

theorem waitIfPaused_trace (env : WEnv) :
    ∀ (fuel : Nat) (s : WSt),
      ∃ t, (waitIfPaused env fuel s).2.trace = s.trace ++ t ∧
        ∀ e ∈ t, PlainEv e := by
  intro fuel
  induction fuel with
  | zero =>
    intro s
    unfold waitIfPaused
    by_cases h : env.pauseF s.nP
    · exact ⟨[], by simp [h], by simp⟩
    · exact ⟨[], by simp [h], by simp⟩
  | succ f ih =>
    intro s
    unfold waitIfPaused
    by_cases hp : env.pauseF s.nP
    · by_cases ha : env.abortF s.nA
      · exact ⟨[.callRunnerAbort, .sigAborted], by simp [hp, ha],
          by simp [List.forall_mem_cons, plainEv_callRunnerAbort,
                   plainEv_sigAborted]⟩
      · obtain ⟨t, ht, hgood⟩ := ih
          { s with nP := s.nP + 1, nA := s.nA + 1, clock := s.clock + 50 }
        exact ⟨t, by simp [hp, ha] at ht ⊢; exact ht, hgood⟩
    · exact ⟨[], by simp [hp], by simp⟩

theorem controlledSleepLoop_trace (env : WEnv) (totalMs : Nat) :
    ∀ (fuel remaining elapsed : Nat) (s : WSt),
      ∃ t, (controlledSleepLoop env totalMs fuel remaining elapsed s).2.trace =
          s.trace ++ t ∧ ∀ e ∈ t, PlainEv e := by
  intro fuel
  induction fuel with
  | zero =>
    intro remaining elapsed s
    unfold controlledSleepLoop
    by_cases h : remaining = 0
    · exact ⟨[], by simp [h], by simp⟩
    · exact ⟨[], by simp [h], by simp⟩
  | succ f ih =>
    intro remaining elapsed s
    unfold controlledSleepLoop
    by_cases h0 : remaining = 0
    · exact ⟨[], by simp [h0], by simp⟩
    · by_cases ha : env.abortF s.nA
      · exact ⟨[], by simp [h0, ha], by simp⟩
      · obtain ⟨t, ht, hg⟩ := ih (remaining - min 50 remaining)
          (elapsed + min 50 remaining)
          { s with nA := s.nA + 1, clock := s.clock + min 50 remaining,
                   trace := s.trace ++
                     [.sigStepProgress (elapsed + min 50 remaining) totalMs
                        "waiting..."] }
        refine ⟨.sigStepProgress (elapsed + min 50 remaining) totalMs
            "waiting..." :: t, ?_, ?_⟩
        · simp [h0, ha] at ht ⊢
          simpa using ht
        · simp only [List.forall_mem_cons]
          exact ⟨plainEv_sigStepProgress _ _ _, hg⟩

theorem waitForAveragingLoop_trace (env : WEnv) (timeoutMs t0 : Nat) :
    ∀ (fuel : Nat) (s : WSt),
      ∃ t, (waitForAveragingLoop env timeoutMs t0 fuel s).2.trace =
          s.trace ++ t ∧ ∀ e ∈ t, PlainEv e := by
  intro fuel
  induction fuel with
  | zero =>
    intro s
    simp only [waitForAveragingLoop]
    rcases hd : env.avgDoneAt s.clock with e | b
    · exact ⟨[], by simp [hd], by simp⟩
    · cases b
      · exact ⟨[], by simp [hd], by simp⟩
      · exact ⟨[], by simp [hd], by simp⟩
  | succ f ih =>
    intro s
    simp only [waitForAveragingLoop]
    rcases hd : env.avgDoneAt s.clock with e | b
    · exact ⟨[], by simp [hd], by simp⟩
    · cases b
      · by_cases ha : env.abortF s.nA
        · exact ⟨[], by simp [hd, ha], by simp⟩
        · by_cases hto : timeoutMs < s.clock - t0
          · exact ⟨[], by simp [hd, ha, hto], by simp⟩
          · obtain ⟨t, ht, hg⟩ := ih
              { s with nA := s.nA + 1, clock := s.clock + 50,
                       trace := s.trace ++
                         [.sigStepProgress (s.clock - t0) timeoutMs
                            "averaging..."] }
            refine ⟨.sigStepProgress (s.clock - t0) timeoutMs
                "averaging..." :: t, ?_, ?_⟩
            · simp [hd, ha, hto] at ht ⊢
              simpa using ht
            · simp only [List.forall_mem_cons]
              exact ⟨plainEv_sigStepProgress _ _ _, hg⟩
      · exact ⟨[], by simp [hd], by simp⟩

theorem settleLoop_trace (env : WEnv) (timeoutMs t0 : Nat) :
    ∀ (fuel : Nat) (s : WSt),
      ∃ t, (settleLoop env timeoutMs t0 fuel s).2.trace = s.trace ++ t ∧
        ∀ e ∈ t, PlainEv e := by
  intro fuel
  induction fuel with
  | zero =>
    intro s
    unfold settleLoop
    by_cases hr : env.readyAt s.clock
    · exact ⟨[], by simp [hr], by simp⟩
    · exact ⟨[], by simp [hr], by simp⟩
  | succ f ih =>
    intro s
    unfold settleLoop
    by_cases hr : env.readyAt s.clock
    · exact ⟨[], by simp [hr], by simp⟩
    · by_cases ha : env.abortF s.nA
      · exact ⟨[], by simp [hr, ha], by simp⟩
      · by_cases hto : timeoutMs < s.clock - t0
        · exact ⟨[], by simp [hr, ha, hto], by simp⟩
        · obtain ⟨t, ht, hg⟩ := ih
            { s with nA := s.nA + 1, clock := s.clock + 50,
                     trace := s.trace ++
                       [.sigStepProgress (s.clock - t0) timeoutMs
                          "stabilizing..."] }
          refine ⟨.sigStepProgress (s.clock - t0) timeoutMs
              "stabilizing..." :: t, ?_, ?_⟩
          · simp [hr, ha, hto] at ht ⊢
            simpa using ht
          · simp only [List.forall_mem_cons]
            exact ⟨plainEv_sigStepProgress _ _ _, hg⟩

theorem positionDwell_trace (env : WEnv) (dwellS : ℚ) (s : WSt) :
    ∃ t, (positionDwell env dwellS s).2.trace = s.trace ++ t ∧
      ∀ e ∈ t, PlainEv e := by
  by_cases hd : 0 < dwellS
  · obtain ⟨t, ht, hg⟩ := controlledSleepLoop_trace env (⌊dwellS * 1000⌋).toNat
      env.fuel (⌊dwellS * 1000⌋).toNat 0 s
    rcases hcs : controlledSleepLoop env (⌊dwellS * 1000⌋).toNat env.fuel
        (⌊dwellS * 1000⌋).toNat 0 s with ⟨r, s1⟩
    rw [hcs] at ht
    simp at ht
    rcases r with e | b
    · exact ⟨t, by simp [positionDwell, hd, hcs, ht], hg⟩
    · cases b
      · exact ⟨t, by simp [positionDwell, hd, hcs, ht], hg⟩
      · refine ⟨t ++ [.sigStepProgress 1 1 ""], ?_, ?_⟩
        · simp [positionDwell, hd, hcs, ht]
        · exact List.forall_mem_append.mpr ⟨hg,
            by intro e he; simp at he; subst he
               exact plainEv_sigStepProgress _ _ _⟩
  · refine ⟨[.sigStepProgress 1 1 ""], by simp [positionDwell, hd], ?_⟩
    intro e he
    simp at he
    subst he
    exact plainEv_sigStepProgress _ _ _

theorem positionAxis_trace (env : WEnv) (v dwellS : ℚ) (s : WSt) :
    ∃ t, (positionAxis env v dwellS s).2.trace = s.trace ++ t ∧
      ∀ e ∈ t, PlainEv e := by
  rcases hg0 : env.gotoRes v with e | u
  · refine ⟨[.callGoto v], by simp [positionAxis, hg0], ?_⟩
    intro e' he'
    simp at he'
    subst he'
    exact plainEv_callGoto v
  · by_cases hb : env.blocking
    · obtain ⟨t1, ht1, hg1⟩ := settleLoop_trace env (env.settleMs v) s.clock
        env.fuel { s with trace := s.trace ++ [.callGoto v] }
      rcases hsl : settleLoop env (env.settleMs v) s.clock env.fuel
          { s with trace := s.trace ++ [.callGoto v] } with ⟨r1, s1⟩
      rw [hsl] at ht1
      simp at ht1
      rcases r1 with e1 | b1
      · refine ⟨.callGoto v :: t1, ?_, ?_⟩
        · simp [positionAxis, hg0, hb, hsl, ht1]
        · simp only [List.forall_mem_cons]
          exact ⟨plainEv_callGoto v, hg1⟩
      · cases b1
        · refine ⟨.callGoto v :: t1, ?_, ?_⟩
          · simp [positionAxis, hg0, hb, hsl, ht1]
          · simp only [List.forall_mem_cons]
            exact ⟨plainEv_callGoto v, hg1⟩
        · obtain ⟨t2, ht2, hg2⟩ := positionDwell_trace env dwellS s1
          refine ⟨.callGoto v :: (t1 ++ t2), ?_, ?_⟩
          · simp [positionAxis, hg0, hb, hsl, ht2, ht1]
          · simp only [List.forall_mem_cons]
            exact ⟨plainEv_callGoto v, List.forall_mem_append.mpr ⟨hg1, hg2⟩⟩
    · obtain ⟨t2, ht2, hg2⟩ := positionDwell_trace env dwellS
        { s with trace := s.trace ++ [.callGoto v] }
      refine ⟨.callGoto v :: t2, ?_, ?_⟩
      · simp [positionAxis, hg0, hb] at ht2 ⊢
        simpa using ht2
      · simp only [List.forall_mem_cons]
        exact ⟨plainEv_callGoto v, hg2⟩

theorem captureData_trace (env : WEnv) (v : ℚ) (i : Nat) (s : WSt) :
    ∃ t, (captureData env v i s).2.trace = s.trace ++ t ∧
      ∀ e ∈ t, PlainEv e := by
  rcases hc : env.captureRes v i with e | atom
  · refine ⟨[.callCapture i], by simp [captureData, hc], ?_⟩
    intro e' he'
    simp at he'
    subst he'
    exact plainEv_callCapture i
  · refine ⟨[.callCapture i, .sigDataReady atom],
      by simp [captureData, hc], ?_⟩
    simp only [List.forall_mem_cons]
    exact ⟨plainEv_callCapture i, plainEv_sigDataReady atom, by simp⟩

theorem safeDump_trace (env : WEnv) (i : Nat) (s : WSt) :
    ∃ t, (safeDump env i s).2.trace = s.trace ++ t ∧ ∀ e ∈ t, PlainEv e := by
  by_cases hsd : env.safeDumpDir
  · rcases hdr : env.dumpRes i with e | u
    · refine ⟨[.callDumpSave i], by simp [safeDump, hsd, hdr], ?_⟩
      intro e' he'
      simp at he'
      subst he'
      exact plainEv_callDumpSave i
    · refine ⟨[.callDumpSave i], by simp [safeDump, hsd, hdr], ?_⟩
      intro e' he'
      simp at he'
      subst he'
      exact plainEv_callDumpSave i
  · exact ⟨[], by simp [safeDump, hsd], by simp⟩

theorem runAveraging_spec (env : WEnv) (i : Nat) (s : WSt) :
    ∃ t, (runAveraging env i s).2.trace = s.trace ++ t ∧
      (∀ e ∈ t, GoodEv e) ∧
      ((runAveraging env i s).1 = .ok true →
        t.count Ev.callBeginAveraging = 1 ∧
        t.count Ev.callEndAveraging = 0) ∧
      ((runAveraging env i s).1 = .ok false →
        t.count Ev.callBeginAveraging = 1 ∧
        t.count Ev.callEndAveraging = 1) := by
  rcases hb : env.beginAvgRes i with e | u
  · refine ⟨[.callBeginAveraging], by simp [runAveraging, hb], ?_, ?_, ?_⟩
    · intro e' he'
      simp at he'
      subst he'
      exact goodEv_callBeginAveraging
    · intro h
      simp [runAveraging, hb] at h
    · intro h
      simp [runAveraging, hb] at h
  · rcases hte : env.timeoutEstMs i with e | timeoutMs
    · refine ⟨[.callBeginAveraging], by simp [runAveraging, hb, hte],
        ?_, ?_, ?_⟩
      · intro e' he'
        simp at he'
        subst he'
        exact goodEv_callBeginAveraging
      · intro h
        simp [runAveraging, hb, hte] at h
      · intro h
        simp [runAveraging, hb, hte] at h
    · obtain ⟨t1, ht1, hp1⟩ := waitForAveragingLoop_trace env timeoutMs
        s.clock env.fuel { s with trace := s.trace ++ [.callBeginAveraging] }
      rcases hw : waitForAveragingLoop env timeoutMs s.clock env.fuel
          { s with trace := s.trace ++ [.callBeginAveraging] } with ⟨r1, s1⟩
      rw [hw] at ht1
      simp at ht1
      obtain ⟨hc1B, hc1E⟩ := plain_count_zero hp1
      rcases r1 with e1 | b1
      · refine ⟨.callBeginAveraging :: t1, ?_, ?_, ?_, ?_⟩
        · simp [runAveraging, hb, hte, hw, ht1]
        · simp only [List.forall_mem_cons]
          exact ⟨goodEv_callBeginAveraging, fun e' he' => (hp1 e' he').1⟩
        · intro h
          simp [runAveraging, hb, hte, hw] at h
        · intro h
          simp [runAveraging, hb, hte, hw] at h
      · cases b1
        · rcases hend : env.endAvgRes i with e2 | u2
          · refine ⟨.callBeginAveraging :: (t1 ++ [.callEndAveraging]),
              ?_, ?_, ?_, ?_⟩
            · simp [runAveraging, hb, hte, hw, hend, ht1]
            · simp only [List.forall_mem_cons]
              refine ⟨goodEv_callBeginAveraging,
                List.forall_mem_append.mpr ⟨fun e' he' => (hp1 e' he').1, ?_⟩⟩
              intro e' he'
              simp at he'
              subst he'
              exact goodEv_callEndAveraging
            · intro h
              simp [runAveraging, hb, hte, hw, hend] at h
            · intro h
              simp [runAveraging, hb, hte, hw, hend] at h
          · refine ⟨.callBeginAveraging :: (t1 ++ [.callEndAveraging]),
              ?_, ?_, ?_, ?_⟩
            · simp [runAveraging, hb, hte, hw, hend, ht1]
            · simp only [List.forall_mem_cons]
              refine ⟨goodEv_callBeginAveraging,
                List.forall_mem_append.mpr ⟨fun e' he' => (hp1 e' he').1, ?_⟩⟩
              intro e' he'
              simp at he'
              subst he'
              exact goodEv_callEndAveraging
            · intro h
              simp [runAveraging, hb, hte, hw, hend] at h
            · intro _
              constructor
              · simp [List.count_cons, List.count_append, hc1B]
              · simp [List.count_cons, List.count_append, hc1E]
        · refine ⟨.callBeginAveraging :: (t1 ++ [.sigStepProgress 1 1 ""]),
            ?_, ?_, ?_, ?_⟩
          · simp [runAveraging, hb, hte, hw, ht1]
          · simp only [List.forall_mem_cons]
            refine ⟨goodEv_callBeginAveraging,
              List.forall_mem_append.mpr ⟨fun e' he' => (hp1 e' he').1, ?_⟩⟩
            intro e' he'
            simp at he'
            subst he'
            exact (plainEv_sigStepProgress 1 1 "").1
          · intro _
            constructor
            · simp [List.count_cons, List.count_append, hc1B]
            · simp [List.count_cons, List.count_append, hc1E]
          · intro h
            simp [runAveraging, hb, hte, hw] at h

theorem runSteps_spec (env : WEnv) (dwellS : ℚ) (npts : Nat) :
    ∀ (l : List (Nat × ℚ)) (s : WSt),
      ∃ t, (runSteps env dwellS npts l s).2.trace = s.trace ++ t ∧
        (∀ e ∈ t, GoodEv e) ∧
        ((runSteps env dwellS npts l s).1 = .ok () →
          t.count Ev.callBeginAveraging = t.count Ev.callEndAveraging) := by
  intro l
  induction l with
  | nil =>
    intro s
    exact ⟨[], by simp [runSteps], by simp, fun _ => by simp⟩
  | cons hd rest ih =>
    rcases hd with ⟨i, v⟩
    intro s
    obtain ⟨t0, ht0, hp0⟩ := checkAbort_trace env s
    rcases hca : checkAbort env s with ⟨r0, s1⟩
    rw [hca] at ht0
    simp at ht0
    obtain ⟨hz0B, hz0E⟩ := plain_count_zero hp0
    rcases r0 with e0 | b0
    · refine ⟨t0, by simp [runSteps, hca, ht0],
        fun e he => (hp0 e he).1, ?_⟩
      intro h
      simp [runSteps, hca] at h
    · cases b0
      · -- no abort requested: wait for pause release
        obtain ⟨t1, ht1, hp1⟩ := waitIfPaused_trace env env.fuel s1
        rcases hwp : waitIfPaused env env.fuel s1 with ⟨r1, s2⟩
        rw [hwp] at ht1
        simp at ht1
        obtain ⟨hz1B, hz1E⟩ := plain_count_zero hp1
        rcases r1 with e1 | b1
        · refine ⟨t0 ++ t1, ?_, ?_, ?_⟩
          · simp [runSteps, hca, hwp, ht1, ht0]
          · exact List.forall_mem_append.mpr
              ⟨fun e he => (hp0 e he).1, fun e he => (hp1 e he).1⟩
          · intro h
            simp [runSteps, hca, hwp] at h
        · cases b1
          · -- aborted while paused
            refine ⟨t0 ++ t1, ?_, ?_, ?_⟩
            · simp [runSteps, hca, hwp, ht1, ht0]
            · exact List.forall_mem_append.mpr
                ⟨fun e he => (hp0 e he).1, fun e he => (hp1 e he).1⟩
            · intro _
              simp [List.count_append, hz0B, hz0E, hz1B, hz1E]
          · -- position the axis
            obtain ⟨t2, ht2, hp2⟩ := positionAxis_trace env v dwellS s2
            rcases hpa : positionAxis env v dwellS s2 with ⟨r2, s3⟩
            rw [hpa] at ht2
            simp at ht2
            obtain ⟨hz2B, hz2E⟩ := plain_count_zero hp2
            rcases r2 with e2 | b2
            · refine ⟨t0 ++ (t1 ++ t2), ?_, ?_, ?_⟩
              · simp [runSteps, hca, hwp, hpa, ht2, ht1, ht0]
              · exact List.forall_mem_append.mpr
                  ⟨fun e he => (hp0 e he).1, List.forall_mem_append.mpr
                    ⟨fun e he => (hp1 e he).1, fun e he => (hp2 e he).1⟩⟩
              · intro h
                simp [runSteps, hca, hwp, hpa] at h
            · cases b2
              · -- aborted during positioning / dwell
                refine ⟨t0 ++ (t1 ++ (t2 ++
                    [.callRunnerAbort, .sigAborted])), ?_, ?_, ?_⟩
                · simp [runSteps, hca, hwp, hpa, ht2, ht1, ht0]
                · refine List.forall_mem_append.mpr
                    ⟨fun e he => (hp0 e he).1, List.forall_mem_append.mpr
                      ⟨fun e he => (hp1 e he).1, List.forall_mem_append.mpr
                        ⟨fun e he => (hp2 e he).1, ?_⟩⟩⟩
                  simp only [List.forall_mem_cons]
                  exact ⟨plainEv_callRunnerAbort.1, plainEv_sigAborted.1,
                    by simp⟩
                · intro _
                  simp [List.count_append, List.count_cons,
                        hz0B, hz0E, hz1B, hz1E, hz2B, hz2E]
              · -- step_started, then averaging
                obtain ⟨t3, ht3, hg3, hav1, hav0⟩ := runAveraging_spec env i
                  { s3 with trace := s3.trace ++ [.sigStepStarted v] }
                rcases hra : runAveraging env i
                    { s3 with trace := s3.trace ++ [.sigStepStarted v] }
                  with ⟨r3, s5⟩
                rw [hra] at ht3 hav1 hav0
                simp at ht3 hav1 hav0
                rcases r3 with e3 | b3
                · refine ⟨t0 ++ (t1 ++ (t2 ++ (.sigStepStarted v :: t3))),
                    ?_, ?_, ?_⟩
                  · simp only [runSteps, hca, hwp, hpa, hra]
                    simp [ht3, ht2, ht1, ht0]
                  · refine List.forall_mem_append.mpr
                      ⟨fun e he => (hp0 e he).1, List.forall_mem_append.mpr
                        ⟨fun e he => (hp1 e he).1, List.forall_mem_append.mpr
                          ⟨fun e he => (hp2 e he).1, ?_⟩⟩⟩
                    simp only [List.forall_mem_cons]
                    exact ⟨(plainEv_sigStepStarted v).1, hg3⟩
                  · intro h
                    simp [runSteps, hca, hwp, hpa, hra] at h
                · cases b3
                  · -- averaging wait aborted (end_averaging already ran)
                    obtain ⟨h3B, h3E⟩ := hav0 rfl
                    refine ⟨t0 ++ (t1 ++ (t2 ++ (.sigStepStarted v ::
                        (t3 ++ [.callRunnerAbort, .sigAborted])))),
                      ?_, ?_, ?_⟩
                    · simp only [runSteps, hca, hwp, hpa, hra]
                      simp [ht3, ht2, ht1, ht0]
                    · refine List.forall_mem_append.mpr
                        ⟨fun e he => (hp0 e he).1, List.forall_mem_append.mpr
                          ⟨fun e he => (hp1 e he).1,
                           List.forall_mem_append.mpr
                            ⟨fun e he => (hp2 e he).1, ?_⟩⟩⟩
                      simp only [List.forall_mem_cons]
                      refine ⟨(plainEv_sigStepStarted v).1,
                        List.forall_mem_append.mpr ⟨hg3, ?_⟩⟩
                      simp only [List.forall_mem_cons]
                      exact ⟨plainEv_callRunnerAbort.1, plainEv_sigAborted.1,
                        by simp⟩
                    · intro _
                      simp [List.count_append, List.count_cons,
                            hz0B, hz0E, hz1B, hz1E, hz2B, hz2E, h3B, h3E]
                  · -- averaging complete: capture, dump, end, progress
                    obtain ⟨h3B, h3E⟩ := hav1 rfl
                    obtain ⟨t4, ht4, hp4⟩ := captureData_trace env v i s5
                    rcases hcd : captureData env v i s5 with ⟨r4, s6⟩
                    rw [hcd] at ht4
                    simp at ht4
                    obtain ⟨hz4B, hz4E⟩ := plain_count_zero hp4
                    rcases r4 with e4 | atom
                    · refine ⟨t0 ++ (t1 ++ (t2 ++ (.sigStepStarted v ::
                          (t3 ++ t4)))), ?_, ?_, ?_⟩
                      · simp only [runSteps, hca, hwp, hpa, hra, hcd]
                        simp [ht4, ht3, ht2, ht1, ht0]
                      · refine List.forall_mem_append.mpr
                          ⟨fun e he => (hp0 e he).1,
                           List.forall_mem_append.mpr
                            ⟨fun e he => (hp1 e he).1,
                             List.forall_mem_append.mpr
                              ⟨fun e he => (hp2 e he).1, ?_⟩⟩⟩
                        simp only [List.forall_mem_cons]
                        exact ⟨(plainEv_sigStepStarted v).1,
                          List.forall_mem_append.mpr
                            ⟨hg3, fun e he => (hp4 e he).1⟩⟩
                      · intro h
                        simp [runSteps, hca, hwp, hpa, hra, hcd] at h
                    · obtain ⟨t5, ht5, hp5⟩ := safeDump_trace env i s6
                      rcases hsd : safeDump env i s6 with ⟨r5, s7⟩
                      rw [hsd] at ht5
                      simp at ht5
                      obtain ⟨hz5B, hz5E⟩ := plain_count_zero hp5
                      rcases r5 with e5 | u5
                      · refine ⟨t0 ++ (t1 ++ (t2 ++ (.sigStepStarted v ::
                            (t3 ++ (t4 ++ t5))))), ?_, ?_, ?_⟩
                        · simp only [runSteps, hca, hwp, hpa, hra, hcd,
                                       hsd]
                          simp [ht5, ht4, ht3, ht2, ht1, ht0]
                        · refine List.forall_mem_append.mpr
                            ⟨fun e he => (hp0 e he).1,
                             List.forall_mem_append.mpr
                              ⟨fun e he => (hp1 e he).1,
                               List.forall_mem_append.mpr
                                ⟨fun e he => (hp2 e he).1, ?_⟩⟩⟩
                          simp only [List.forall_mem_cons]
                          exact ⟨(plainEv_sigStepStarted v).1,
                            List.forall_mem_append.mpr
                              ⟨hg3, List.forall_mem_append.mpr
                                ⟨fun e he => (hp4 e he).1,
                                 fun e he => (hp5 e he).1⟩⟩⟩
                        · intro h
                          simp [runSteps, hca, hwp, hpa, hra, hcd, hsd] at h
                      · rcases hend : env.endAvgRes i with e6 | u6
                        · refine ⟨t0 ++ (t1 ++ (t2 ++ (.sigStepStarted v ::
                              (t3 ++ (t4 ++ (t5 ++ [.callEndAveraging])))))),
                            ?_, ?_, ?_⟩
                          · simp only [runSteps, hca, hwp, hpa, hra, hcd,
                                         hsd, hend]
                            simp [ht5, ht4, ht3, ht2, ht1, ht0]
                          · refine List.forall_mem_append.mpr
                              ⟨fun e he => (hp0 e he).1,
                               List.forall_mem_append.mpr
                                ⟨fun e he => (hp1 e he).1,
                                 List.forall_mem_append.mpr
                                  ⟨fun e he => (hp2 e he).1, ?_⟩⟩⟩
                            simp only [List.forall_mem_cons]
                            refine ⟨(plainEv_sigStepStarted v).1,
                              List.forall_mem_append.mpr
                                ⟨hg3, List.forall_mem_append.mpr
                                  ⟨fun e he => (hp4 e he).1,
                                   List.forall_mem_append.mpr
                                    ⟨fun e he => (hp5 e he).1, ?_⟩⟩⟩⟩
                            simp only [List.forall_mem_cons]
                            exact ⟨goodEv_callEndAveraging, by simp⟩
                          · intro h
                            simp [runSteps, hca, hwp, hpa, hra, hcd, hsd,
                                  hend] at h
                        · -- full step succeeded: recurse
                          obtain ⟨t6, ht6, hg6, hbal⟩ := ih
                            { s7 with trace := (s7.trace ++
                                [.callEndAveraging]) ++
                                [.sigRunProgress i npts,
                                 .sigStepFinished i npts] }
                          refine ⟨t0 ++ (t1 ++ (t2 ++ (.sigStepStarted v ::
                              (t3 ++ (t4 ++ (t5 ++ (.callEndAveraging ::
                                .sigRunProgress i npts ::
                                .sigStepFinished i npts :: t6))))))),
                            ?_, ?_, ?_⟩
                          · simp [ht5, ht4, ht3, ht2, ht1, ht0] at ht6
                            simp only [runSteps, hca, hwp, hpa, hra, hcd,
                                       hsd, hend]
                            simp [ht6, ht5, ht4, ht3, ht2, ht1, ht0]
                          · refine List.forall_mem_append.mpr
                              ⟨fun e he => (hp0 e he).1,
                               List.forall_mem_append.mpr
                                ⟨fun e he => (hp1 e he).1,
                                 List.forall_mem_append.mpr
                                  ⟨fun e he => (hp2 e he).1, ?_⟩⟩⟩
                            simp only [List.forall_mem_cons]
                            refine ⟨(plainEv_sigStepStarted v).1,
                              List.forall_mem_append.mpr
                                ⟨hg3, List.forall_mem_append.mpr
                                  ⟨fun e he => (hp4 e he).1,
                                   List.forall_mem_append.mpr
                                    ⟨fun e he => (hp5 e he).1, ?_⟩⟩⟩⟩
                            simp only [List.forall_mem_cons]
                            exact ⟨goodEv_callEndAveraging,
                              (plainEv_sigRunProgress i npts).1,
                              (plainEv_sigStepFinished i npts).1, hg6⟩
                          · intro h
                            have hok : (runSteps env dwellS npts rest
                                { s7 with trace := (s7.trace ++
                                    [.callEndAveraging]) ++
                                    [.sigRunProgress i npts,
                                     .sigStepFinished i npts] }).1 =
                                .ok () := by
                              simp only [runSteps, hca, hwp, hpa, hra, hcd,
                                         hsd, hend] at h
                              exact h
                            have hb6 := hbal hok
                            simp [List.count_append, List.count_cons,
                                  hz0B, hz0E, hz1B, hz1E, hz2B, hz2E,
                                  h3B, h3E, hz4B, hz4E, hz5B, hz5E, hb6]
                            omega
      · -- abort observed at the top of the step: stop cleanly
        refine ⟨t0, by simp [runSteps, hca, ht0],
          fun e he => (hp0 e he).1, ?_⟩
        intro _
        rw [hz0B, hz0E]

/-! ## Theorems: C3 (finalization and terminal-notification ordering) -/

/-- Whether an event is a notification on the worker's signal surface
(as opposed to an outgoing engine/axis call). -/
def isNotif : Ev → Bool
  | .sigStarted => true
  | .sigRunProgress _ _ => true
  | .sigStepStarted _ => true
  | .sigStepProgress _ _ _ => true
  | .sigDataReady _ => true
  | .sigStepFinished _ _ => true
  | .sigAborted => true
  | .sigFinished => true
  | _ => false

/-- The claim's ordering property: the terminal (`finished`) notification
fires after all other notifications — nothing after a `finished` in the
trace is a notification. -/
def terminalNotifLast (t : List Ev) : Prop :=
  ∀ p q, t = p ++ Ev.sigFinished :: q → ∀ e ∈ q, isNotif e = false

/-- A run whose abort flag is already set at the first check; every other
script value is inert. -/
def abortedEnv : WEnv where
  abortF := fun _ => true
  pauseF := fun _ => false
  blocking := false
  readyAt := fun _ => true
  settleMs := fun _ => 0
  gotoRes := fun _ => .ok ()
  beginAvgRes := fun _ => .ok ()
  timeoutEstMs := fun _ => .ok 15000
  avgDoneAt := fun _ => .ok true
  captureRes := fun _ i => .ok ⟨i⟩
  endAvgRes := fun _ => .ok ()
  dumpRes := fun _ => .ok ()
  safeDumpDir := false
  shutdownRes := .ok ()
  fuel := 100

theorem points_1_1_1 : SweepConfig.points ⟨1, 1, 1, 0⟩ = [1] := by
  norm_num [SweepConfig.points, SweepConfig.pointsFuel, sweepEps,
            pointsUpAux]

theorem npoints_1_1_1 : SweepConfig.npoints ⟨1, 1, 1, 0⟩ = 1 := by
  simp [SweepConfig.npoints, points_1_1_1]

/-- C3 (counterexample): on the abort exit path of a one-point sweep, the
worker emits `aborted`, then the `finally` block emits `finished` and
*after it* the `step_progress(0, 1, "")` reset notification — so the
terminal notification does not fire after all other notifications of the
run, contrary to the claim. -/
theorem worker_terminal_notification_not_last :
    ¬ terminalNotifLast (workerRun abortedEnv ⟨1, 1, 1, 0⟩).2.trace := by
  have ht : (workerRun abortedEnv ⟨1, 1, 1, 0⟩).2.trace =
      [.sigStarted, .sigRunProgress 0 1, .callRunnerAbort, .sigAborted,
       .sigFinished, .sigStepProgress 0 1 "", .callShutdown] := by
    simp [workerRun, npoints_1_1_1, points_1_1_1, enumFrom, runSteps,
          checkAbort, abortedEnv]
  intro h
  have hx := h
    [.sigStarted, .sigRunProgress 0 1, .callRunnerAbort, .sigAborted]
    [.sigStepProgress 0 1 "", .callShutdown]
    (by rw [ht]; rfl)
    (.sigStepProgress 0 1 "") (by simp)
  simp [isNotif] at hx

/-- C3 (amended): on every exit path of `ExperimentWorker.run` —
completion, abort, pause-then-abort, or unexpected exception — the axis
`shutdown()` is called exactly once and the `finished` notification fires
exactly once; `finished` fires after every other notification of the run
except the single `step_progress(0, 1, "")` reset that the `finally`
block emits between `finished` and the `shutdown()` call. -/
theorem worker_finally_structure (env : WEnv) (sweep : SweepConfig) :
    ∃ p, (workerRun env sweep).2.trace =
        p ++ [.sigFinished, .sigStepProgress 0 1 "", .callShutdown] ∧
      Ev.sigFinished ∉ p ∧ Ev.callShutdown ∉ p ∧
      (workerRun env sweep).2.trace.count Ev.sigFinished = 1 ∧
      (workerRun env sweep).2.trace.count Ev.callShutdown = 1 := by
  obtain ⟨t, ht, hg, _⟩ := runSteps_spec env sweep.dwell_s sweep.npoints
    (enumFrom 1 sweep.points)
    ⟨[.sigStarted, .sigRunProgress 0 sweep.npoints], 0, 0, 0⟩
  have htrace : (workerRun env sweep).2.trace =
      ([.sigStarted, .sigRunProgress 0 sweep.npoints] ++ t) ++
        [.sigFinished, .sigStepProgress 0 1 "", .callShutdown] := by
    simp only [workerRun]
    simp [ht]
  have hfin : Ev.sigFinished ∉
      [Ev.sigStarted, Ev.sigRunProgress 0 sweep.npoints] ++ t := by
    intro hm
    rcases List.mem_append.mp hm with hm | hm
    · simp at hm
    · exact (hg _ hm).1 rfl
  have hshut : Ev.callShutdown ∉
      [Ev.sigStarted, Ev.sigRunProgress 0 sweep.npoints] ++ t := by
    intro hm
    rcases List.mem_append.mp hm with hm | hm
    · simp at hm
    · exact (hg _ hm).2 rfl
  refine ⟨[.sigStarted, .sigRunProgress 0 sweep.npoints] ++ t, htrace,
    hfin, hshut, ?_, ?_⟩
  · rw [htrace, List.count_append]
    rw [List.count_eq_zero.mpr hfin]
    rfl
  · rw [htrace, List.count_append]
    rw [List.count_eq_zero.mpr hshut]
    rfl

/-! ## Theorems: C4 (averaging lifecycle pairing) -/

/-- A run whose averaging never completes and whose estimated poll
timeout is 0 ms: the second poll raises `TimeoutError`. -/
def avgTimeoutEnv : WEnv :=
  { abortedEnv with
      abortF := fun _ => false
      avgDoneAt := fun _ => .ok false
      timeoutEstMs := fun _ => .ok 0
      fuel := 3 }

/-- A run whose averaging never completes against a 60 ms poll timeout:
the third poll (at 100 ms) raises `TimeoutError`. -/
def avgTimeoutEnv60 : WEnv :=
  { abortedEnv with
      abortF := fun _ => false
      avgDoneAt := fun _ => .ok false
      timeoutEstMs := fun _ => .ok 60
      fuel := 5 }

/-- A run whose capture call raises after averaging completed. -/
def captureRaisesEnv : WEnv :=
  { abortedEnv with
      abortF := fun _ => false
      captureRes := fun _ _ => .error .engine }

/-- A run aborted during the averaging wait (the abort flag turns on at
its second read, which is the one inside `_wait_for_averaging`). -/
def abortMidWaitEnv : WEnv :=
  { abortedEnv with
      abortF := fun k => k == 1
      avgDoneAt := fun _ => .ok false }

/-- C4 (counterexample): in a step whose averaging poll times out,
`begin_averaging` was called but `end_averaging` never is: the
`TimeoutError` raised inside `_wait_for_averaging` propagates out of
`_run_averaging` past the `end_averaging()` call sites, contrary to the
claim that end always follows begin regardless of outcome. -/
theorem worker_timeout_skips_end_averaging :
    (workerRun avgTimeoutEnv ⟨1, 1, 1, 0⟩).1 = .error .timeout ∧
    (workerRun avgTimeoutEnv ⟨1, 1, 1, 0⟩).2.trace.count
      Ev.callBeginAveraging = 1 ∧
    (workerRun avgTimeoutEnv ⟨1, 1, 1, 0⟩).2.trace.count
      Ev.callEndAveraging = 0 := by
  refine ⟨?_, ?_, ?_⟩ <;>
    simp [workerRun, npoints_1_1_1, points_1_1_1, enumFrom, runSteps,
          checkAbort, waitIfPaused, positionAxis, positionDwell,
          runAveraging, waitForAveragingLoop, captureData, safeDump,
          avgTimeoutEnv, abortedEnv, List.count_cons]

/-- C4 (amended): on every run that exits cleanly (completion or any
cooperative-abort path, including an abort during the averaging wait,
where `_run_averaging` itself calls `end_averaging`), every
`begin_averaging` call is matched by an `end_averaging` call; but when
the averaging wait times out, or when the capture raises, the step's
`begin_averaging` is *not* followed by `end_averaging` — the exception
propagates to the `finally` block, which does not end averaging. -/
theorem worker_end_averaging_characterization :
    (∀ (env : WEnv) (sweep : SweepConfig),
      (workerRun env sweep).1 = .ok () →
      (workerRun env sweep).2.trace.count Ev.callEndAveraging =
        (workerRun env sweep).2.trace.count Ev.callBeginAveraging) ∧
    ((workerRun avgTimeoutEnv60 ⟨1, 1, 1, 0⟩).1 = .error .timeout ∧
      (workerRun avgTimeoutEnv60 ⟨1, 1, 1, 0⟩).2.trace.count
        Ev.callBeginAveraging = 1 ∧
      (workerRun avgTimeoutEnv60 ⟨1, 1, 1, 0⟩).2.trace.count
        Ev.callEndAveraging = 0) ∧
    ((workerRun captureRaisesEnv ⟨1, 1, 1, 0⟩).1 = .error .engine ∧
      (workerRun captureRaisesEnv ⟨1, 1, 1, 0⟩).2.trace.count
        Ev.callBeginAveraging = 1 ∧
      (workerRun captureRaisesEnv ⟨1, 1, 1, 0⟩).2.trace.count
        Ev.callEndAveraging = 0) := by
  refine ⟨?_, ?_, ?_⟩
  · intro env sweep h
    obtain ⟨t, ht, hg, hbal⟩ := runSteps_spec env sweep.dwell_s
      sweep.npoints (enumFrom 1 sweep.points)
      ⟨[.sigStarted, .sigRunProgress 0 sweep.npoints], 0, 0, 0⟩
    have hok : (runSteps env sweep.dwell_s sweep.npoints
        (enumFrom 1 sweep.points)
        ⟨[.sigStarted, .sigRunProgress 0 sweep.npoints], 0, 0, 0⟩).1 =
        .ok () := by
      rcases hs : env.shutdownRes with e | u
      · simp only [workerRun, hs] at h
        simp at h
      · simp only [workerRun, hs] at h
        exact h
    have hb := hbal hok
    have htrace : (workerRun env sweep).2.trace =
        ([.sigStarted, .sigRunProgress 0 sweep.npoints] ++ t) ++
          [.sigFinished, .sigStepProgress 0 1 "", .callShutdown] := by
      simp only [workerRun]
      simp [ht]
    rw [htrace]
    simp [List.count_append, List.count_cons, hb]
  · refine ⟨?_, ?_, ?_⟩ <;>
      simp [workerRun, npoints_1_1_1, points_1_1_1, enumFrom, runSteps,
            checkAbort, waitIfPaused, positionAxis, positionDwell,
            runAveraging, waitForAveragingLoop, captureData, safeDump,
            avgTimeoutEnv60, abortedEnv, List.count_cons]
  · refine ⟨?_, ?_, ?_⟩ <;>
      simp [workerRun, npoints_1_1_1, points_1_1_1, enumFrom, runSteps,
            checkAbort, waitIfPaused, positionAxis, positionDwell,
            runAveraging, waitForAveragingLoop, captureData, safeDump,
            captureRaisesEnv, abortedEnv, List.count_cons]

/-- C4 (amended, witness): a run aborted during the averaging wait exits
cleanly, and its single `begin_averaging` is matched by the
`end_averaging` that `_run_averaging` performs on the abort path. -/
theorem worker_end_averaging_characterization_witness :
    (workerRun abortMidWaitEnv ⟨1, 1, 1, 0⟩).1 = .ok () ∧
    (workerRun abortMidWaitEnv ⟨1, 1, 1, 0⟩).2.trace.count
      Ev.callEndAveraging =
      (workerRun abortMidWaitEnv ⟨1, 1, 1, 0⟩).2.trace.count
        Ev.callBeginAveraging := by
  have h1 : (workerRun abortMidWaitEnv ⟨1, 1, 1, 0⟩).1 = .ok () := by
    simp [workerRun, npoints_1_1_1, points_1_1_1, enumFrom, runSteps,
          checkAbort, waitIfPaused, positionAxis, positionDwell,
          runAveraging, waitForAveragingLoop, captureData, safeDump,
          abortMidWaitEnv, abortedEnv]
  exact ⟨h1,
    worker_end_averaging_characterization.1 abortMidWaitEnv ⟨1, 1, 1, 0⟩ h1⟩

end Teracontrol

namespace Teracontrol

/-! ## Theorems: C1 (end-to-end Count sweep 1..3) -/

/-- The acquisition index carried by a `data_ready` notification. -/
def dataReadyIndex : Ev → Option Nat
  | .sigDataReady a => some a.index
  | _ => none

theorem points_1_3_1 : SweepConfig.points ⟨1, 3, 1, 0⟩ = [1, 2, 3] := by
  norm_num [SweepConfig.points, SweepConfig.pointsFuel, sweepEps,
            pointsUpAux]

theorem npoints_1_3_1 : SweepConfig.npoints ⟨1, 3, 1, 0⟩ = 3 := by
  simp [SweepConfig.npoints, points_1_3_1]

/-- With the pause flag never set, `_wait_if_paused` returns `True` at
once (only the flag read happens). -/
theorem waitIfPaused_never_paused (env : WEnv)
    (h : ∀ k, env.pauseF k = false) (fuel : Nat) (s : WSt) :
    waitIfPaused env fuel s = (.ok true, { s with nP := s.nP + 1 }) := by
  unfold waitIfPaused
  simp [h]

/-- With firmware averaging reporting done at every poll,
`_wait_for_averaging` returns `True` at once. -/
theorem waitForAveragingLoop_done (env : WEnv)
    (h : ∀ c, env.avgDoneAt c = .ok true) (timeoutMs t0 fuel : Nat)
    (s : WSt) :
    waitForAveragingLoop env timeoutMs t0 fuel s = (.ok true, s) := by
  cases fuel with
  | zero =>
    simp only [waitForAveragingLoop]
    simp [h]
  | succ f =>
    simp only [waitForAveragingLoop]
    simp [h]

/-- C1: for a Count-axis sweep `start=1, stop=3, step=1, dwell=0` (a
non-blocking axis whose `goto` cannot fail) against a capture engine that
succeeds at every point — averaging starts and completes, the estimate
and end calls succeed, and `capture(meta, index=i)` returns a `DataAtom`
carrying index `i` — the worker emits exactly 3 `data_ready`
notifications carrying atoms with indices 1, 2, 3 in that order, all
before the single `finished` notification, and zero `aborted`
notifications. -/
theorem worker_count_sweep_emits_indexed_atoms
    (env : WEnv) (T : Nat → Nat)
    (habort : ∀ k, env.abortF k = false)
    (hpause : ∀ k, env.pauseF k = false)
    (hblock : env.blocking = false)
    (hgoto : ∀ v, env.gotoRes v = .ok ())
    (hbegin : ∀ i, env.beginAvgRes i = .ok ())
    (htout : ∀ i, env.timeoutEstMs i = .ok (T i))
    (hdone : ∀ c, env.avgDoneAt c = .ok true)
    (hcap : ∀ v i, env.captureRes v i = .ok ⟨i⟩)
    (hend : ∀ i, env.endAvgRes i = .ok ())
    (hdump : env.safeDumpDir = false) :
    ∃ p q, (workerRun env ⟨1, 3, 1, 0⟩).2.trace =
        p ++ Ev.sigFinished :: q ∧
      p.filterMap dataReadyIndex = [1, 2, 3] ∧
      q.filterMap dataReadyIndex = [] ∧
      (workerRun env ⟨1, 3, 1, 0⟩).2.trace.count Ev.sigFinished = 1 ∧
      (workerRun env ⟨1, 3, 1, 0⟩).2.trace.count Ev.sigAborted = 0 := by
  have ht : (workerRun env ⟨1, 3, 1, 0⟩).2.trace =
      ([.sigStarted, .sigRunProgress 0 3,
 .callGoto 1, .sigStepProgress 1 1 "", .sigStepStarted 1,
       .callBeginAveraging, .sigStepProgress 1 1 "", .callCapture 1,
       .sigDataReady ⟨1⟩, .callEndAveraging, .sigRunProgress 1 3,
       .sigStepFinished 1 3,
 .callGoto 2, .sigStepProgress 1 1 "", .sigStepStarted 2,
       .callBeginAveraging, .sigStepProgress 1 1 "", .callCapture 2,
       .sigDataReady ⟨2⟩, .callEndAveraging, .sigRunProgress 2 3,
       .sigStepFinished 2 3,
 .callGoto 3, .sigStepProgress 1 1 "", .sigStepStarted 3,
       .callBeginAveraging, .sigStepProgress 1 1 "", .callCapture 3,
       .sigDataReady ⟨3⟩, .callEndAveraging, .sigRunProgress 3 3,
       .sigStepFinished 3 3] : List Ev) ++
      [.sigFinished, .sigStepProgress 0 1 "", .callShutdown] := by
    simp [workerRun, npoints_1_3_1, points_1_3_1, enumFrom, runSteps,
          checkAbort, waitIfPaused_never_paused env hpause, positionAxis,
          positionDwell, runAveraging, waitForAveragingLoop_done env hdone,
          captureData, safeDump, habort, hblock, hgoto, hbegin, htout,
          hcap, hend, hdump]
  refine ⟨([.sigStarted, .sigRunProgress 0 3,
 .callGoto 1, .sigStepProgress 1 1 "", .sigStepStarted 1,
       .callBeginAveraging, .sigStepProgress 1 1 "", .callCapture 1,
       .sigDataReady ⟨1⟩, .callEndAveraging, .sigRunProgress 1 3,
       .sigStepFinished 1 3,
 .callGoto 2, .sigStepProgress 1 1 "", .sigStepStarted 2,
       .callBeginAveraging, .sigStepProgress 1 1 "", .callCapture 2,
       .sigDataReady ⟨2⟩, .callEndAveraging, .sigRunProgress 2 3,
       .sigStepFinished 2 3,
 .callGoto 3, .sigStepProgress 1 1 "", .sigStepStarted 3,
       .callBeginAveraging, .sigStepProgress 1 1 "", .callCapture 3,
       .sigDataReady ⟨3⟩, .callEndAveraging, .sigRunProgress 3 3,
       .sigStepFinished 3 3] : List Ev),
    [.sigStepProgress 0 1 "", .callShutdown], ?_, ?_, ?_, ?_, ?_⟩
  · rw [ht]
  · simp [dataReadyIndex]
  · simp [dataReadyIndex]
  · rw [ht]
    simp [List.count_cons, List.count_append]
  · rw [ht]
    simp [List.count_cons, List.count_append]

/-- A fully successful scripted run (no abort, no pause, engine always
succeeding, atoms echoing the requested index). -/
def happyEnv : WEnv :=
  { abortedEnv with abortF := fun _ => false }

/-- C1 (witness): the canonical succeeding environment realizes the
hypotheses, so the 1..3 Count sweep emits the three indexed atoms, one
`finished` and no `aborted`. -/
theorem worker_count_sweep_emits_indexed_atoms_witness :
    ∃ p q, (workerRun happyEnv ⟨1, 3, 1, 0⟩).2.trace =
        p ++ Ev.sigFinished :: q ∧
      p.filterMap dataReadyIndex = [1, 2, 3] ∧
      q.filterMap dataReadyIndex = [] ∧
      (workerRun happyEnv ⟨1, 3, 1, 0⟩).2.trace.count Ev.sigFinished = 1 ∧
      (workerRun happyEnv ⟨1, 3, 1, 0⟩).2.trace.count Ev.sigAborted = 0 :=
  worker_count_sweep_emits_indexed_atoms happyEnv (fun _ => 15000)
    (fun _ => rfl) (fun _ => rfl) rfl (fun _ => rfl) (fun _ => rfl)
    (fun _ => rfl) (fun _ => rfl) (fun _ _ => rfl) (fun _ => rfl) rfl

end Teracontrol
